import Mathlib

/-!
Verification of the MASSP WAES/WS encoder (`src/build_waes.py`, `src/build_ws.py`)
and post-solve audit (`src/audit.py`) against their natural-language specification.

Shallow embedding conventions:
* Python `int` is modelled as `ℤ`, Python `float` as `ℚ` (all arithmetic in the
  encoder and audit is exact decimal arithmetic on the values involved).
* Python dictionaries carried by `InstanceData` are modelled as total functions;
  the loader/validator guarantees every key the core reads is present, so the
  behaviours coincide on validated instances.  The pure key-presence checks of
  `validate_instance` are therefore not represented; all value checks are.
* Python tuples of indices (sorted index sets) are modelled as `List ℤ`.
* The bound sentinels `"inf"` / `"ninf"` together with numeric bounds are
  modelled by the `Bnd` type.
* The variable dictionaries (`x_aijk`, `y_tija`, `y_tj`) and the solved-value
  dictionaries hold exactly the dense symbolic key space; lookups are
  totalized (`dictGet` defaults, solved values as total maps), and the
  `KeyError` a lookup outside that key space raises in Python is tracked
  separately and explicitly by `BuildWaes.keyAbsent` /
  `BuildWaes.raisesKeyError` (encoder) and `Audit.solvedKeyAbsent` /
  `Audit.auditRaises` (audit).
-/

set_option maxRecDepth 1000000

/-- Bound value: a number, or one of the string sentinels `"inf"` / `"ninf"`
used by `build_waes.py` (`Bound = Union[float, str]`). -/
inductive Bnd where
  | val (x : ℚ)
  | pinf
  | ninf
deriving DecidableEq

/-- Python `range(lo, hi + 1)` over integers, i.e. the closed interval `[lo, hi]`. -/
def rangeII (lo hi : ℤ) : List ℤ :=
  (List.range (hi + 1 - lo).toNat).map (fun t : ℕ => lo + (t : ℤ))

/-- Python `sorted(set(xs) & set(ys))`: the ascending list of the distinct
elements common to `xs` and `ys`. -/
def sortedInter (xs ys : List ℤ) : List ℤ :=
  List.insertionSort (· ≤ ·) ((xs.filter (fun x => decide (x ∈ ys))).dedup)

/-- `src/instance.py`: canonical in-memory representation of a MASSP instance
(`InstanceData`). -/
structure InstanceData where
  name : String
  n : ℤ
  N : List ℤ
  M1 : List ℤ
  M2 : List ℤ
  M : List ℤ
  A : List ℤ
  B : List ℤ
  C : List ℤ
  A1 : List ℤ
  A2 : List ℤ
  T : List ℤ
  Ga : ℤ → List ℤ
  d : ℤ × ℤ → ℚ
  s : ℤ × ℤ → ℚ
  v : ℤ → ℤ
  r : ℤ → ℤ
  Ta : ℤ → List ℤ
  Ht : ℤ → List ℤ
  c : ℤ → ℚ
  q : ℤ
  p : ℤ
  f : ℤ
  Oj : ℤ → List ℤ
  w : ℚ
  b : ℤ × ℤ → ℚ
  shift_start : ℤ → ℤ
  shift_length : ℤ → ℤ
  shift_cost_multiplier : ℤ → ℚ
  paper_objective_tolerance : ℚ

/-- `validate_instance`, partition checks: `M1`/`M2` disjoint with
`M = M1 ∪ M2`, `B`/`C` disjoint with `A = B ∪ C`, `A1`/`A2` disjoint with
`A = A1 ∪ A2` (as sets). -/
def chkPartitions (inst : InstanceData) : Bool :=
  inst.M1.all (fun j => decide (j ∉ inst.M2)) &&
  inst.M.all (fun j => decide (j ∈ inst.M1) || decide (j ∈ inst.M2)) &&
  inst.M1.all (fun j => decide (j ∈ inst.M)) &&
  inst.M2.all (fun j => decide (j ∈ inst.M)) &&
  inst.B.all (fun a => decide (a ∉ inst.C)) &&
  inst.A.all (fun a => decide (a ∈ inst.B) || decide (a ∈ inst.C)) &&
  inst.B.all (fun a => decide (a ∈ inst.A)) &&
  inst.C.all (fun a => decide (a ∈ inst.A)) &&
  inst.A1.all (fun a => decide (a ∉ inst.A2)) &&
  inst.A.all (fun a => decide (a ∈ inst.A1) || decide (a ∈ inst.A2)) &&
  inst.A1.all (fun a => decide (a ∈ inst.A)) &&
  inst.A2.all (fun a => decide (a ∈ inst.A))

/-- `validate_instance`: `N` must be exactly `(1, ..., n)`. -/
def chkHorizon (inst : InstanceData) : Bool :=
  decide (inst.N = rangeII 1 inst.n)

/-- `validate_instance`: every coverage entry `b[(k, j)]` for `j ∈ M`, `k ∈ N`
must be 0/1. -/
def chkCoverage (inst : InstanceData) : Bool :=
  inst.M.all (fun j => inst.N.all (fun k =>
    decide (inst.b (k, j) = 0) || decide (inst.b (k, j) = 1)))

/-- `validate_instance`: capability maps are nonempty where required and
mutually consistent (`Ta`/`Ht` are inverse relations). -/
def chkCapability (inst : InstanceData) : Bool :=
  inst.A.all (fun a => decide (inst.Ta a ≠ [])) &&
  inst.T.all (fun t => decide (inst.Ht t ≠ [])) &&
  inst.A.all (fun a => (inst.Ta a).all (fun t =>
    decide (t ∈ inst.T) && decide (a ∈ inst.Ht t))) &&
  inst.T.all (fun t => (inst.Ht t).all (fun a =>
    decide (a ∈ inst.A) && decide (t ∈ inst.Ta a)))

/-- `validate_instance`: each full-time break window has exactly `f` intervals,
all inside `N`. -/
def chkBreakWindows (inst : InstanceData) : Bool :=
  inst.M1.all (fun j =>
    decide (((inst.Oj j).length : ℤ) = inst.f) &&
    (inst.Oj j).all (fun x => decide (x ∈ inst.N)))

/-- `validate_instance`: scalar ranges `w ∈ [0, 1]`, `q > 0`, `p ≥ 0`, `f > 0`. -/
def chkScalars (inst : InstanceData) : Bool :=
  decide (0 ≤ inst.w) && decide (inst.w ≤ 1) &&
  decide (0 < inst.q) && decide (0 ≤ inst.p) && decide (0 < inst.f)

/-- `validate_instance` succeeds (raises no `ValueError`).  Key-presence checks
on the instance dictionaries are omitted: dictionaries are embedded as total
functions (see the header comment). -/
def validateInstance (inst : InstanceData) : Bool :=
  chkPartitions inst && chkHorizon inst && chkCoverage inst &&
  chkCapability inst && chkBreakWindows inst && chkScalars inst

/-- Symbolic decision-variable keys: `x[a,i,j,k]`, `y_assign[t,i,j,a]`,
`y_shift[t,j]` (`XKey` / `YIKey` / `YSKey` in the sources). -/
inductive VarKey where
  | xv (a i j k : ℤ)
  | ya (t i j a : ℤ)
  | ys (t j : ℤ)
deriving DecidableEq

/-- `src/solution_types.py`: `SolvedValues`.  The three solved-value
dictionaries are embedded as total maps over the dense symbolic key space
(the audits are only ever run on solutions covering the full key space). -/
structure SolvedValues where
  mode : String
  objective : ℚ
  x_aijk : ℤ × ℤ × ℤ × ℤ → ℚ
  y_tija : ℤ × ℤ × ℤ × ℤ → ℚ
  y_tj : ℤ × ℤ → ℚ
  status : String
  solver_time : Option ℚ := none
  mip_gap : Option ℚ := none
  solution_bound : Option ℚ := none

/-- Python 3 `round` on an exact rational: round-half-to-even. -/
def pyRound (x : ℚ) : ℤ :=
  let fl : ℤ := x.num.fdiv (x.den : ℤ)
  let frac : ℚ := x - (fl : ℚ)
  if frac = 1/2 then (if fl % 2 = 0 then fl else fl + 1)
  else if frac < 1/2 then fl else fl + 1

theorem rangeII_eq_nil (lo hi : ℤ) (h : hi < lo) : rangeII lo hi = [] := by
  unfold rangeII
  have : (hi + 1 - lo).toNat = 0 := by omega
  simp [this]

theorem mem_rangeII {lo hi x : ℤ} : x ∈ rangeII lo hi ↔ lo ≤ x ∧ x ≤ hi := by
  unfold rangeII
  simp only [List.mem_map, List.mem_range]
  constructor
  · rintro ⟨t, ht, rfl⟩
    omega
  · rintro ⟨h1, h2⟩
    exact ⟨(x - lo).toNat, by omega, by omega⟩

theorem rangeII_nodup (lo hi : ℤ) : (rangeII lo hi).Nodup := by
  unfold rangeII
  refine List.Nodup.map ?_ (List.nodup_range _)
  intro a b h
  simpa using h

theorem pyRound_intCast (m : ℤ) : pyRound (m : ℚ) = m := by
  simp only [pyRound, Rat.num_intCast, Rat.den_intCast]
  have hfl : m.fdiv ((1 : ℕ) : ℤ) = m := by simp [Int.fdiv_one]
  rw [hfl, sub_self]
  have h2 : (0 : ℚ) ≠ 1/2 := by norm_num
  have h3 : (0 : ℚ) < 1/2 := by norm_num
  simp [h2, h3]

namespace BuildWaes

/-- `build_waes._until_a1`: end of the deadline window for an A1 activity. -/
def untilA1 (inst : InstanceData) (i_or_k a : ℤ) (ws_mode : Bool) : ℤ :=
  let v_a : ℤ := if ws_mode then 0 else inst.v a
  min (i_or_k + v_a) inst.n

/-- `build_waes._until_a2`: end of the release window for an A2 activity. -/
def untilA2 (inst : InstanceData) (i_or_k a : ℤ) (ws_mode : Bool) : ℤ :=
  if ws_mode then i_or_k
  else if inst.r a ≤ 0 then i_or_k
  else max i_or_k (min (inst.r a) inst.n)

/-- `x` variable creation order: `for a in A: for i in N: for j in M: for k in N`. -/
def xKeys (inst : InstanceData) : List (ℤ × ℤ × ℤ × ℤ) :=
  inst.A.flatMap (fun a => inst.N.flatMap (fun i =>
    inst.M.flatMap (fun j => inst.N.map (fun k => (a, i, j, k)))))

/-- `y_tija` variable creation order: `for t in T: for i in N: for j in M: for a in A`. -/
def yiKeys (inst : InstanceData) : List (ℤ × ℤ × ℤ × ℤ) :=
  inst.T.flatMap (fun t => inst.N.flatMap (fun i =>
    inst.M.flatMap (fun j => inst.A.map (fun a => (t, i, j, a)))))

/-- `y_tj` variable creation order: `for t in T: for j in M`. -/
def ysKeys (inst : InstanceData) : List (ℤ × ℤ) :=
  inst.T.flatMap (fun t => inst.M.map (fun j => (t, j)))

def nX (inst : InstanceData) : ℕ := (xKeys inst).length

def nYI (inst : InstanceData) : ℕ := (yiKeys inst).length

def nYS (inst : InstanceData) : ℕ := (ysKeys inst).length

/-- Key-to-index dictionary built by successive `add_var` calls starting at
offset `off`: the `idx = len(variable_names)` counter of the source. -/
def mkMap {α : Type} : List α → ℕ → List (α × ℕ)
  | [], _ => []
  | k :: ks, off => (k, off) :: mkMap ks (off + 1)

/-- Python dict lookup on the association list (later bindings win),
totalized with default 0.  A lookup at a key absent from the dictionary
raises `KeyError` in the source; that error path is not collapsed but tracked
by `keyAbsent` / `raisesKeyError` below, and theorems evaluate `dictGet` only
at keys shown (or checked) present. -/
def dictGet {α : Type} [DecidableEq α] (l : List (α × ℕ)) (key : α) : ℕ :=
  ((l.filter (fun p => decide (p.1 = key))).map Prod.snd).getLastD 0

/-- Flat variable index of each symbolic key: `x_aijk[key]` / `y_tija[key]` /
`y_tj[key]` after the three variable-creation loops. -/
def varIndex (inst : InstanceData) : VarKey → ℕ
  | .xv a i j k => dictGet (mkMap (xKeys inst) 0) (a, i, j, k)
  | .ya t i j a => dictGet (mkMap (yiKeys inst) (nX inst)) (t, i, j, a)
  | .ys t j => dictGet (mkMap (ysKeys inst) (nX inst + nYI inst)) (t, j)

def xName (p : ℤ × ℤ × ℤ × ℤ) : String :=
  "x_a" ++ toString p.1 ++ "_i" ++ toString p.2.1 ++ "_j" ++ toString p.2.2.1
    ++ "_k" ++ toString p.2.2.2

def yiName (p : ℤ × ℤ × ℤ × ℤ) : String :=
  "y_t" ++ toString p.1 ++ "_i" ++ toString p.2.1 ++ "_j" ++ toString p.2.2.1
    ++ "_a" ++ toString p.2.2.2

def ysName (p : ℤ × ℤ) : String :=
  "y_t" ++ toString p.1 ++ "_j" ++ toString p.2

/-- A constraint row before `add_row`: the sequence of `row[idx] += coeff`
accumulations in loop order (kept symbolically), with its bounds. -/
structure RawRow where
  contrib : List (VarKey × ℚ)
  lb : Bnd
  ub : Bnd
deriving DecidableEq

/-- A constraint row as emitted by `add_row`: sorted, grouped, with near-zero
coefficients dropped. -/
structure Row where
  coeffs : List (ℕ × ℚ)
  lb : Bnd
  ub : Bnd
deriving DecidableEq

/-- The `1e-12` threshold of `add_row`. -/
def eps12 : ℚ := 1 / 1000000000000

def flatOf (inst : InstanceData) (l : List (VarKey × ℚ)) : List (ℕ × ℚ) :=
  l.map (fun p => (varIndex inst p.1, p.2))

/-- Final value accumulated for flat index `k` (`row.get(idx, 0.0) + coeff`
summed over all `+=` hits of that index). -/
def groupVal (l : List (ℕ × ℚ)) (k : ℕ) : ℚ :=
  ((l.filter (fun p => decide (p.1 = k))).map Prod.snd).sum

/-- `add_row`: emit `sorted(coeffs.items())`, skipping `|coeff| <= 1e-12`. -/
def finalizeRow (inst : InstanceData) (r : RawRow) : Row :=
  let fl := flatOf inst r.contrib
  { coeffs := (List.insertionSort (· ≤ ·) ((fl.map Prod.fst).dedup)).filterMap
      (fun k => if |groupVal fl k| ≤ eps12 then none else some (k, groupVal fl k)),
    lb := r.lb, ub := r.ub }

def set_BA1 (inst : InstanceData) : List ℤ := sortedInter inst.B inst.A1

def set_BA2 (inst : InstanceData) : List ℤ := sortedInter inst.B inst.A2

def set_CA1 (inst : InstanceData) : List ℤ := sortedInter inst.C inst.A1

def set_CA2 (inst : InstanceData) : List ℤ := sortedInter inst.C inst.A2

/-- Eq. (2) row accumulation for origin interval `i`, activity `a ∈ B ∩ A1`. -/
def eq2Contrib (inst : InstanceData) (ws : Bool) (i a : ℤ) : List (VarKey × ℚ) :=
  inst.M.flatMap (fun j => (rangeII i (untilA1 inst i a ws)).map
    (fun k => (VarKey.xv a i j k, inst.b (k, j))))

def eq2Raw (inst : InstanceData) (ws : Bool) (i a : ℤ) : RawRow :=
  ⟨eq2Contrib inst ws i a, .val (inst.d (a, i)), .val (inst.d (a, i))⟩

/-- Eq. (2): independent A1 demand met exactly inside the deadline window. -/
def eq2Rows (inst : InstanceData) (ws : Bool) : List RawRow :=
  inst.N.flatMap (fun i => (set_BA1 inst).map (fun a => eq2Raw inst ws i a))

/-- Eq. (3) row accumulation for origin interval `i`, activity `a ∈ B ∩ A2`. -/
def eq3Contrib (inst : InstanceData) (ws : Bool) (i a : ℤ) : List (VarKey × ℚ) :=
  inst.M.flatMap (fun j => (rangeII i (untilA2 inst i a ws)).map
    (fun k => (VarKey.xv a i j k, inst.b (k, j))))

def eq3Raw (inst : InstanceData) (ws : Bool) (i a : ℤ) : RawRow :=
  ⟨eq3Contrib inst ws i a, .val (inst.d (a, i)), .val (inst.d (a, i))⟩

/-- Eq. (3): independent A2 demand met exactly by the release bound. -/
def eq3Rows (inst : InstanceData) (ws : Bool) : List RawRow :=
  inst.N.flatMap (fun i => (set_BA2 inst).map (fun a => eq3Raw inst ws i a))

/-- Eq. (4) row accumulation: executed volume of dependent activity `a` in its
window, minus `s[(a, parent)]` times every parent volume executed at `k`. -/
def eq4Contrib (inst : InstanceData) (ws : Bool) (k a : ℤ) : List (VarKey × ℚ) :=
  (inst.M.flatMap (fun j => (rangeII k (untilA1 inst k a ws)).map
    (fun kp => (VarKey.xv a k j kp, inst.b (kp, j)))))
  ++ ((inst.Ga a).flatMap (fun ap => inst.M.flatMap (fun j =>
      inst.N.map (fun i => (VarKey.xv ap i j k, -(inst.s (a, ap)))))))

def eq4Raw (inst : InstanceData) (ws : Bool) (k a : ℤ) : RawRow :=
  ⟨eq4Contrib inst ws k a, .val 0, .pinf⟩

/-- Eq. (4): dependent A1 demand lower-bounded by the dependency expression. -/
def eq4Rows (inst : InstanceData) (ws : Bool) : List RawRow :=
  inst.N.flatMap (fun k => (set_CA1 inst).map (fun a => eq4Raw inst ws k a))

def eq5Contrib (inst : InstanceData) (ws : Bool) (k a : ℤ) : List (VarKey × ℚ) :=
  (inst.M.flatMap (fun j => (rangeII k (untilA2 inst k a ws)).map
    (fun kp => (VarKey.xv a k j kp, inst.b (kp, j)))))
  ++ ((inst.Ga a).flatMap (fun ap => inst.M.flatMap (fun j =>
      inst.N.map (fun i => (VarKey.xv ap i j k, -(inst.s (a, ap)))))))

def eq5Raw (inst : InstanceData) (ws : Bool) (k a : ℤ) : RawRow :=
  ⟨eq5Contrib inst ws k a, .val 0, .pinf⟩

/-- Eq. (5): dependent A2 demand lower-bounded by the dependency expression. -/
def eq5Rows (inst : InstanceData) (ws : Bool) : List RawRow :=
  inst.N.flatMap (fun k => (set_CA2 inst).map (fun a => eq5Raw inst ws k a))

def eq6Contrib (inst : InstanceData) (k j a : ℤ) : List (VarKey × ℚ) :=
  ((rangeII 1 k).map (fun i => (VarKey.xv a i j k, (1 : ℚ))))
  ++ ((inst.Ta a).map (fun t => (VarKey.ya t k j a, (-1 : ℚ))))

def eq6Raw (inst : InstanceData) (k j a : ℤ) : RawRow :=
  ⟨eq6Contrib inst k j a, .ninf, .val 0⟩

/-- Eq. (6): interval-`k` execution bounded by interval-`k` activity staffing. -/
def eq6Rows (inst : InstanceData) : List RawRow :=
  inst.N.flatMap (fun k => inst.M.flatMap (fun j =>
    inst.A.map (fun a => eq6Raw inst k j a)))

def eq7Contrib (inst : InstanceData) (i j t : ℤ) : List (VarKey × ℚ) :=
  ((inst.Ht t).map (fun a => (VarKey.ya t i j a, (1 : ℚ))))
  ++ [(VarKey.ys t j, (-1 : ℚ))]

def eq7Raw (inst : InstanceData) (i j t : ℤ) : RawRow :=
  ⟨eq7Contrib inst i j t, .ninf, .val 0⟩

/-- Eq. (7): per-profile interval assignments bounded by shift headcount. -/
def eq7Rows (inst : InstanceData) : List RawRow :=
  inst.N.flatMap (fun i => inst.M.flatMap (fun j =>
    inst.T.map (fun t => eq7Raw inst i j t)))

def eq8Contrib (inst : InstanceData) (i : ℤ) : List (VarKey × ℚ) :=
  inst.T.flatMap (fun t => inst.M.flatMap (fun j =>
    inst.A.map (fun a => (VarKey.ya t i j a, (1 : ℚ)))))

def eq8Raw (inst : InstanceData) (i : ℤ) : RawRow :=
  ⟨eq8Contrib inst i, .ninf, .val (inst.q : ℚ)⟩

/-- Eq. (8): active workers per interval capped by `q`. -/
def eq8Rows (inst : InstanceData) : List RawRow :=
  inst.N.map (fun i => eq8Raw inst i)

def eq9Contrib (inst : InstanceData) (t j : ℤ) : List (VarKey × ℚ) :=
  ((inst.Oj j).flatMap (fun i => (inst.Ht t).map
    (fun a => (VarKey.ya t i j a, (1 : ℚ)))))
  ++ [(VarKey.ys t j, -(((inst.f - inst.p : ℤ) : ℚ)))]

def eq9Raw (inst : InstanceData) (t j : ℤ) : RawRow :=
  ⟨eq9Contrib inst t j, .ninf, .val 0⟩

/-- Eq. (9): full-time break-window load cap. -/
def eq9Rows (inst : InstanceData) : List RawRow :=
  inst.T.flatMap (fun t => inst.M1.map (fun j => eq9Raw inst t j))

def eq10Contrib (inst : InstanceData) : List (VarKey × ℚ) :=
  (inst.M2.flatMap (fun j => inst.T.map (fun t => (VarKey.ys t j, (1 : ℚ)))))
  ++ (inst.M.flatMap (fun j => inst.T.map (fun t => (VarKey.ys t j, -inst.w))))

def eq10Raw (inst : InstanceData) : RawRow :=
  ⟨eq10Contrib inst, .ninf, .val 0⟩

/-- Eq. (10): part-time share cap (a single row). -/
def eq10Rows (inst : InstanceData) : List RawRow :=
  [eq10Raw inst]

/-- All constraint rows, in emission order, as raw accumulations. -/
def rawRows (inst : InstanceData) (ws : Bool) : List RawRow :=
  eq2Rows inst ws ++ eq3Rows inst ws ++ eq4Rows inst ws ++ eq5Rows inst ws ++
  eq6Rows inst ++ eq7Rows inst ++ eq8Rows inst ++ eq9Rows inst ++ eq10Rows inst

/-- All constraint rows exactly as `add_row` stores them. -/
def modelRows (inst : InstanceData) (ws : Bool) : List Row :=
  (rawRows inst ws).map (finalizeRow inst)

/-- `build_waes.WAESModel`: MILP payload data plus variable index maps. -/
structure WAESModel where
  variable_names : List String
  variable_types : List String
  objective_coeffs : List ℚ
  variable_lb : List Bnd
  variable_ub : List Bnd
  csr_offsets : List ℕ
  csr_indices : List ℕ
  csr_values : List ℚ
  constraint_lb : List Bnd
  constraint_ub : List Bnd
  x_aijk : List ((ℤ × ℤ × ℤ × ℤ) × ℕ)
  y_tija : List ((ℤ × ℤ × ℤ × ℤ) × ℕ)
  y_tj : List ((ℤ × ℤ) × ℕ)
  ws_mode : Bool
deriving DecidableEq

/-- `build_waes.build_waes_model`. -/
def build_waes_model (inst : InstanceData) (ws_mode : Bool := false) : WAESModel :=
  let rows := modelRows inst ws_mode
  { variable_names := (xKeys inst).map xName ++ (yiKeys inst).map yiName
      ++ (ysKeys inst).map ysName
    variable_types := ((xKeys inst).map fun _ => "I")
      ++ ((yiKeys inst).map fun _ => "I") ++ ((ysKeys inst).map fun _ => "I")
    objective_coeffs := ((xKeys inst).map fun _ => (0 : ℚ))
      ++ ((yiKeys inst).map fun _ => (0 : ℚ))
      ++ ((ysKeys inst).map fun p => inst.c p.1 * inst.shift_cost_multiplier p.2)
    variable_lb := ((xKeys inst).map fun _ => Bnd.val 0)
      ++ ((yiKeys inst).map fun _ => Bnd.val 0)
      ++ ((ysKeys inst).map fun _ => Bnd.val 0)
    variable_ub := ((xKeys inst).map fun _ => Bnd.val (inst.q : ℚ))
      ++ ((yiKeys inst).map fun _ => Bnd.val (inst.q : ℚ))
      ++ ((ysKeys inst).map fun _ => Bnd.val (inst.q : ℚ))
    csr_offsets := List.scanl (fun acc r => acc + r.coeffs.length) 0 rows
    csr_indices := rows.flatMap (fun r => r.coeffs.map Prod.fst)
    csr_values := rows.flatMap (fun r => r.coeffs.map Prod.snd)
    constraint_lb := rows.map Row.lb
    constraint_ub := rows.map Row.ub
    x_aijk := mkMap (xKeys inst) 0
    y_tija := mkMap (yiKeys inst) (nX inst)
    y_tj := mkMap (ysKeys inst) (nX inst + nYI inst)
    ws_mode := ws_mode }

/-- `/cuopt/request` payload fields (`WAESModel.to_server_payload`). -/
structure ServerPayload where
  csr_offsets : List ℕ
  csr_indices : List ℕ
  csr_values : List ℚ
  constraint_upper_bounds : List Bnd
  constraint_lower_bounds : List Bnd
  objective_coefficients : List ℚ
  scalability_factor : ℚ
  objective_offset : ℚ
  variable_upper_bounds : List Bnd
  variable_lower_bounds : List Bnd
  maximize : Bool
  variable_names : List String
  variable_types : List String
  solver_config : Option (List (String × String))
deriving DecidableEq

/-- `WAESModel.to_server_payload` (the `solver_config` dict is kept abstract
as a list of string pairs; an empty dict is falsy and therefore omitted). -/
def WAESModel.to_server_payload (m : WAESModel)
    (solver_config : List (String × String)) : ServerPayload :=
  { csr_offsets := m.csr_offsets
    csr_indices := m.csr_indices
    csr_values := m.csr_values
    constraint_upper_bounds := m.constraint_ub
    constraint_lower_bounds := m.constraint_lb
    objective_coefficients := m.objective_coeffs
    scalability_factor := 1
    objective_offset := 0
    variable_upper_bounds := m.variable_ub
    variable_lower_bounds := m.variable_lb
    maximize := false
    variable_names := m.variable_names
    variable_types := m.variable_types
    solver_config := if solver_config.isEmpty then none else some solver_config }

end BuildWaes

/-- `build_ws.build_ws_model`: the WS baseline is WAES with `ws_mode=True`. -/
def build_ws_model (inst : InstanceData) : BuildWaes.WAESModel :=
  BuildWaes.build_waes_model inst true

namespace Audit

/-- `audit.AuditIssue`. -/
structure AuditIssue where
  equation : String
  detail : String
  violation : ℚ
deriving DecidableEq

/-- `audit.AuditReport`. -/
structure AuditReport where
  passed : Bool
  tolerance : ℚ
  issues : List AuditIssue
deriving DecidableEq

/-- `audit._until_a1` (duplicated verbatim from the encoder module). -/
def untilA1 (inst : InstanceData) (i_or_k a : ℤ) (ws_mode : Bool) : ℤ :=
  let v_a : ℤ := if ws_mode then 0 else inst.v a
  min (i_or_k + v_a) inst.n

/-- `audit._until_a2` (duplicated verbatim from the encoder module). -/
def untilA2 (inst : InstanceData) (i_or_k a : ℤ) (ws_mode : Bool) : ℤ :=
  if ws_mode then i_or_k
  else if inst.r a ≤ 0 then i_or_k
  else max i_or_k (min (inst.r a) inst.n)

def set_BA1 (inst : InstanceData) : List ℤ := sortedInter inst.B inst.A1

def set_BA2 (inst : InstanceData) : List ℤ := sortedInter inst.B inst.A2

def set_CA1 (inst : InstanceData) : List ℤ := sortedInter inst.C inst.A1

def set_CA2 (inst : InstanceData) : List ℤ := sortedInter inst.C inst.A2

/-- `run_audits.check_eq`: record `|lhs - rhs|` when it exceeds `tol`. -/
def check_eq (tol : ℚ) (eq : String) (lhs rhs : ℚ) (detail : String) :
    Option AuditIssue :=
  if |lhs - rhs| > tol then some ⟨eq, detail, |lhs - rhs|⟩ else none

/-- `run_audits.check_le`: record `lhs - rhs` when it exceeds `tol`. -/
def check_le (tol : ℚ) (eq : String) (lhs rhs : ℚ) (detail : String) :
    Option AuditIssue :=
  if lhs - rhs > tol then some ⟨eq, detail, lhs - rhs⟩ else none

/-- `run_audits.check_ge`: record `rhs - lhs` when it exceeds `tol`. -/
def check_ge (tol : ℚ) (eq : String) (lhs rhs : ℚ) (detail : String) :
    Option AuditIssue :=
  if rhs - lhs > tol then some ⟨eq, detail, rhs - lhs⟩ else none

/-- Python `str` of a 4-tuple of ints, as used in Eq. (11) details. -/
def tupleRepr4 (p : ℤ × ℤ × ℤ × ℤ) : String :=
  "(" ++ toString p.1 ++ ", " ++ toString p.2.1 ++ ", " ++ toString p.2.2.1
    ++ ", " ++ toString p.2.2.2 ++ ")"

/-- Python `str` of a 2-tuple of ints, as used in Eq. (11) details. -/
def tupleRepr2 (p : ℤ × ℤ) : String :=
  "(" ++ toString p.1 ++ ", " ++ toString p.2 ++ ")"

def eq2Lhs (inst : InstanceData) (sv : SolvedValues) (ws : Bool) (i a : ℤ) : ℚ :=
  (inst.M.flatMap (fun j => (rangeII i (untilA1 inst i a ws)).map
    (fun k => sv.x_aijk (a, i, j, k) * inst.b (k, j)))).sum

/-- Eq. (2) audit loop. -/
def eq2Issues (inst : InstanceData) (sv : SolvedValues) (ws : Bool) (tol : ℚ) :
    List AuditIssue :=
  inst.N.flatMap (fun i => (set_BA1 inst).filterMap (fun a =>
    check_eq tol "Eq(2)" (eq2Lhs inst sv ws i a) (inst.d (a, i))
      ("i=" ++ toString i ++ ", a=" ++ toString a)))

def eq3Lhs (inst : InstanceData) (sv : SolvedValues) (ws : Bool) (i a : ℤ) : ℚ :=
  (inst.M.flatMap (fun j => (rangeII i (untilA2 inst i a ws)).map
    (fun k => sv.x_aijk (a, i, j, k) * inst.b (k, j)))).sum

/-- Eq. (3) audit loop. -/
def eq3Issues (inst : InstanceData) (sv : SolvedValues) (ws : Bool) (tol : ℚ) :
    List AuditIssue :=
  inst.N.flatMap (fun i => (set_BA2 inst).filterMap (fun a =>
    check_eq tol "Eq(3)" (eq3Lhs inst sv ws i a) (inst.d (a, i))
      ("i=" ++ toString i ++ ", a=" ++ toString a)))

def eq4Lhs (inst : InstanceData) (sv : SolvedValues) (ws : Bool) (k a : ℤ) : ℚ :=
  (inst.M.flatMap (fun j => (rangeII k (untilA1 inst k a ws)).map
    (fun kp => sv.x_aijk (a, k, j, kp) * inst.b (kp, j)))).sum

/-- Eq. (4) right-hand side.  The source reads
`solved.x_aijk[(a_parent, i, j, k)]`; when `Ga[a]` names a parent outside
`A` this subscript lies outside the dense solved key space and raises
`KeyError` — that error path is tracked by `auditRaises` below, while the
value computation here reads the totalized map. -/
def eq4Rhs (inst : InstanceData) (sv : SolvedValues) (k a : ℤ) : ℚ :=
  ((inst.Ga a).map (fun ap => inst.s (a, ap) *
    ((inst.M.flatMap (fun j => inst.N.map
      (fun i => sv.x_aijk (ap, i, j, k)))).sum))).sum

/-- Eq. (4) audit loop. -/
def eq4Issues (inst : InstanceData) (sv : SolvedValues) (ws : Bool) (tol : ℚ) :
    List AuditIssue :=
  inst.N.flatMap (fun k => (set_CA1 inst).filterMap (fun a =>
    check_ge tol "Eq(4)" (eq4Lhs inst sv ws k a) (eq4Rhs inst sv k a)
      ("k=" ++ toString k ++ ", a=" ++ toString a)))

def eq5Lhs (inst : InstanceData) (sv : SolvedValues) (ws : Bool) (k a : ℤ) : ℚ :=
  (inst.M.flatMap (fun j => (rangeII k (untilA2 inst k a ws)).map
    (fun kp => sv.x_aijk (a, k, j, kp) * inst.b (kp, j)))).sum

/-- Eq. (5) right-hand side; same totalized read and tracked error path as
`eq4Rhs`. -/
def eq5Rhs (inst : InstanceData) (sv : SolvedValues) (k a : ℤ) : ℚ :=
  ((inst.Ga a).map (fun ap => inst.s (a, ap) *
    ((inst.M.flatMap (fun j => inst.N.map
      (fun i => sv.x_aijk (ap, i, j, k)))).sum))).sum

/-- Eq. (5) audit loop. -/
def eq5Issues (inst : InstanceData) (sv : SolvedValues) (ws : Bool) (tol : ℚ) :
    List AuditIssue :=
  inst.N.flatMap (fun k => (set_CA2 inst).filterMap (fun a =>
    check_ge tol "Eq(5)" (eq5Lhs inst sv ws k a) (eq5Rhs inst sv k a)
      ("k=" ++ toString k ++ ", a=" ++ toString a)))

def eq6Lhs (sv : SolvedValues) (k j a : ℤ) : ℚ :=
  ((rangeII 1 k).map (fun i => sv.x_aijk (a, i, j, k))).sum

def eq6Rhs (inst : InstanceData) (sv : SolvedValues) (k j a : ℤ) : ℚ :=
  ((inst.Ta a).map (fun t => sv.y_tija (t, k, j, a))).sum

/-- Eq. (6) audit loop. -/
def eq6Issues (inst : InstanceData) (sv : SolvedValues) (tol : ℚ) :
    List AuditIssue :=
  inst.N.flatMap (fun k => inst.M.flatMap (fun j => inst.A.filterMap (fun a =>
    check_le tol "Eq(6)" (eq6Lhs sv k j a) (eq6Rhs inst sv k j a)
      ("k=" ++ toString k ++ ", j=" ++ toString j ++ ", a=" ++ toString a))))

def eq7Lhs (inst : InstanceData) (sv : SolvedValues) (i j t : ℤ) : ℚ :=
  ((inst.Ht t).map (fun a => sv.y_tija (t, i, j, a))).sum

/-- Eq. (7) audit loop. -/
def eq7Issues (inst : InstanceData) (sv : SolvedValues) (tol : ℚ) :
    List AuditIssue :=
  inst.N.flatMap (fun i => inst.M.flatMap (fun j => inst.T.filterMap (fun t =>
    check_le tol "Eq(7)" (eq7Lhs inst sv i j t) (sv.y_tj (t, j))
      ("i=" ++ toString i ++ ", j=" ++ toString j ++ ", t=" ++ toString t))))

def eq8Lhs (inst : InstanceData) (sv : SolvedValues) (i : ℤ) : ℚ :=
  (inst.T.flatMap (fun t => inst.M.flatMap (fun j =>
    inst.A.map (fun a => sv.y_tija (t, i, j, a))))).sum

/-- Eq. (8) audit loop. -/
def eq8Issues (inst : InstanceData) (sv : SolvedValues) (tol : ℚ) :
    List AuditIssue :=
  inst.N.filterMap (fun i =>
    check_le tol "Eq(8)" (eq8Lhs inst sv i) ((inst.q : ℚ))
      ("i=" ++ toString i))

def eq9Lhs (inst : InstanceData) (sv : SolvedValues) (t j : ℤ) : ℚ :=
  ((inst.Oj j).flatMap (fun i => (inst.Ht t).map
    (fun a => sv.y_tija (t, i, j, a)))).sum

def eq9Rhs (inst : InstanceData) (sv : SolvedValues) (t j : ℤ) : ℚ :=
  ((inst.f - inst.p : ℤ) : ℚ) * sv.y_tj (t, j)

/-- Eq. (9) audit loop. -/
def eq9Issues (inst : InstanceData) (sv : SolvedValues) (tol : ℚ) :
    List AuditIssue :=
  inst.T.flatMap (fun t => inst.M1.filterMap (fun j =>
    check_le tol "Eq(9)" (eq9Lhs inst sv t j) (eq9Rhs inst sv t j)
      ("t=" ++ toString t ++ ", j=" ++ toString j)))

def eq10Lhs (inst : InstanceData) (sv : SolvedValues) : ℚ :=
  (inst.M2.flatMap (fun j => inst.T.map (fun t => sv.y_tj (t, j)))).sum

def eq10Rhs (inst : InstanceData) (sv : SolvedValues) : ℚ :=
  inst.w * (inst.M.flatMap (fun j => inst.T.map (fun t => sv.y_tj (t, j)))).sum

/-- Eq. (10) audit check (a single row). -/
def eq10Issues (inst : InstanceData) (sv : SolvedValues) (tol : ℚ) :
    List AuditIssue :=
  (check_le tol "Eq(10)" (eq10Lhs inst sv) (eq10Rhs inst sv)
    "part-time-share").toList

/-- Iteration order of `solved.x_aijk.items()`: the solve pipeline unpacks the
solution vector with a comprehension over `model.x_aijk.items()`, so the dict
holds the dense symbolic key space in variable-creation order. -/
def xItems (inst : InstanceData) : List (ℤ × ℤ × ℤ × ℤ) := BuildWaes.xKeys inst

/-- Iteration order of `solved.y_tija.items()` (see `xItems`). -/
def yiItems (inst : InstanceData) : List (ℤ × ℤ × ℤ × ℤ) := BuildWaes.yiKeys inst

/-- Iteration order of `solved.y_tj.items()` (see `xItems`). -/
def ysItems (inst : InstanceData) : List (ℤ × ℤ) := BuildWaes.ysKeys inst

/-- Eq. (11) audit loop: integrality of every solved value. -/
def eq11Issues (inst : InstanceData) (sv : SolvedValues) (tol : ℚ) :
    List AuditIssue :=
  ((xItems inst).filterMap (fun key =>
    check_eq tol "Eq(11)" (sv.x_aijk key) ((pyRound (sv.x_aijk key) : ℤ) : ℚ)
      ("x" ++ tupleRepr4 key)))
  ++ ((yiItems inst).filterMap (fun key =>
    check_eq tol "Eq(11)" (sv.y_tija key) ((pyRound (sv.y_tija key) : ℤ) : ℚ)
      ("y_tija" ++ tupleRepr4 key)))
  ++ ((ysItems inst).filterMap (fun key =>
    check_eq tol "Eq(11)" (sv.y_tj key) ((pyRound (sv.y_tj key) : ℤ) : ℚ)
      ("y_tj" ++ tupleRepr2 key)))

/-- All audit issues accumulated by `run_audits`, in emission order. -/
def allIssues (inst : InstanceData) (sv : SolvedValues) (ws : Bool) (tol : ℚ) :
    List AuditIssue :=
  eq2Issues inst sv ws tol ++ eq3Issues inst sv ws tol ++
  eq4Issues inst sv ws tol ++ eq5Issues inst sv ws tol ++
  eq6Issues inst sv tol ++ eq7Issues inst sv tol ++ eq8Issues inst sv tol ++
  eq9Issues inst sv tol ++ eq10Issues inst sv tol ++ eq11Issues inst sv tol

/-- `audit.run_audits`: re-check Eq. (2)-(11) numerically on solved values. -/
def run_audits (inst : InstanceData) (solved : SolvedValues) (ws_mode : Bool)
    (tol : ℚ := 1/10000) : AuditReport :=
  { passed := (allIssues inst solved ws_mode tol).isEmpty
    tolerance := tol
    issues := allIssues inst solved ws_mode tol }

end Audit

/-- The solved-value assignment read through symbolic variable keys. -/
def symVals (sv : SolvedValues) : VarKey → ℚ
  | .xv a i j k => sv.x_aijk (a, i, j, k)
  | .ya t i j a => sv.y_tija (t, i, j, a)
  | .ys t j => sv.y_tj (t, j)

/-- Value of a raw (pre-`add_row`) coefficient accumulation at an assignment:
the full linear form, including contributions later dropped by the `1e-12`
filter. -/
def rawVal (vals : VarKey → ℚ) (contrib : List (VarKey × ℚ)) : ℚ :=
  (contrib.map (fun p => p.2 * vals p.1)).sum

/-- `lb ≤ value` with the `"ninf"` / `"inf"` sentinels. -/
def bndLeQ : Bnd → ℚ → Bool
  | .ninf, _ => true
  | .pinf, _ => false
  | .val x, y => decide (x ≤ y)

/-- `value ≤ ub` with the `"ninf"` / `"inf"` sentinels. -/
def qLeBnd : ℚ → Bnd → Bool
  | _, .pinf => true
  | _, .ninf => false
  | y, .val x => decide (y ≤ x)

/-- Exact satisfaction of a raw row: row lower bound ≤ full row value ≤ row
upper bound. -/
def rawRowSat (vals : VarKey → ℚ) (r : BuildWaes.RawRow) : Bool :=
  bndLeQ r.lb (rawVal vals r.contrib) && qLeBnd (rawVal vals r.contrib) r.ub

/-- Value of an emitted CSR row (stored coefficients only) at a flat
assignment. -/
def rowLhs (vals : ℕ → ℚ) (r : BuildWaes.Row) : ℚ :=
  (r.coeffs.map (fun p => p.2 * vals p.1)).sum

/-- Exact satisfaction of an emitted CSR row. -/
def rowSat (vals : ℕ → ℚ) (r : BuildWaes.Row) : Bool :=
  bndLeQ r.lb (rowLhs vals r) && qLeBnd (rowLhs vals r) r.ub

/-- The variable catalog as symbolic keys, in flat index order. -/
def varKeyEnum (inst : InstanceData) : List VarKey :=
  ((BuildWaes.xKeys inst).map (fun p => VarKey.xv p.1 p.2.1 p.2.2.1 p.2.2.2))
  ++ ((BuildWaes.yiKeys inst).map (fun p => VarKey.ya p.1 p.2.1 p.2.2.1 p.2.2.2))
  ++ ((BuildWaes.ysKeys inst).map (fun p => VarKey.ys p.1 p.2))

/-- The flat solution vector corresponding to a solved-value assignment. -/
def flatVals (inst : InstanceData) (sv : SolvedValues) (idx : ℕ) : ℚ :=
  match (varKeyEnum inst).get? idx with
  | some key => symVals sv key
  | none => 0

theorem sum_map_neg {α : Type} (l : List α) (f : α → ℚ) :
    (l.map (fun x => -(f x))).sum = -((l.map f).sum) := by
  induction l with
  | nil => simp
  | cons x xs ih => simp [ih]; ring

theorem untilA1_same : BuildWaes.untilA1 = Audit.untilA1 := rfl

theorem untilA2_same : BuildWaes.untilA2 = Audit.untilA2 := rfl

theorem sum_flatMap {α : Type} (l : List α) (f : α → List ℚ) :
    (l.flatMap f).sum = (l.map (fun x => (f x).sum)).sum := by
  induction l with
  | nil => simp
  | cons x xs ih => simp [List.flatMap_cons, List.sum_append, ih]

theorem rawRowSat_val_val {vals : VarKey → ℚ} {contrib : List (VarKey × ℚ)}
    {d : ℚ} (h : rawRowSat vals ⟨contrib, .val d, .val d⟩ = true) :
    rawVal vals contrib = d := by
  simp only [rawRowSat, bndLeQ, qLeBnd, Bool.and_eq_true, decide_eq_true_eq] at h
  exact le_antisymm h.2 h.1

theorem rawRowSat_ninf_val {vals : VarKey → ℚ} {contrib : List (VarKey × ℚ)}
    {u : ℚ} (h : rawRowSat vals ⟨contrib, .ninf, .val u⟩ = true) :
    rawVal vals contrib ≤ u := by
  simp only [rawRowSat, bndLeQ, qLeBnd, Bool.and_eq_true, decide_eq_true_eq] at h
  exact h.2

theorem rawRowSat_val_pinf {vals : VarKey → ℚ} {contrib : List (VarKey × ℚ)}
    {lo : ℚ} (h : rawRowSat vals ⟨contrib, .val lo, .pinf⟩ = true) :
    lo ≤ rawVal vals contrib := by
  simp only [rawRowSat, bndLeQ, qLeBnd, Bool.and_eq_true, decide_eq_true_eq] at h
  exact h.1

theorem check_eq_none {tol lhs rhs : ℚ} (eq detail : String)
    (h : |lhs - rhs| ≤ tol) : Audit.check_eq tol eq lhs rhs detail = none := by
  simp [Audit.check_eq, not_lt.2 h]

theorem check_le_none {tol lhs rhs : ℚ} (eq detail : String)
    (h : lhs - rhs ≤ tol) : Audit.check_le tol eq lhs rhs detail = none := by
  simp [Audit.check_le, not_lt.2 h]

theorem check_ge_none {tol lhs rhs : ℚ} (eq detail : String)
    (h : rhs - lhs ≤ tol) : Audit.check_ge tol eq lhs rhs detail = none := by
  simp [Audit.check_ge, not_lt.2 h]

theorem eq2_val_eq (inst : InstanceData) (sv : SolvedValues) (ws : Bool)
    (i a : ℤ) :
    rawVal (symVals sv) (BuildWaes.eq2Contrib inst ws i a) =
      Audit.eq2Lhs inst sv ws i a := by
  simp [rawVal, BuildWaes.eq2Contrib, Audit.eq2Lhs, List.map_flatMap,
    List.map_map, Function.comp_def, symVals, untilA1_same, mul_comm]

theorem eq3_val_eq (inst : InstanceData) (sv : SolvedValues) (ws : Bool)
    (i a : ℤ) :
    rawVal (symVals sv) (BuildWaes.eq3Contrib inst ws i a) =
      Audit.eq3Lhs inst sv ws i a := by
  simp [rawVal, BuildWaes.eq3Contrib, Audit.eq3Lhs, List.map_flatMap,
    List.map_map, Function.comp_def, symVals, untilA2_same, mul_comm]

theorem eq4_val_eq (inst : InstanceData) (sv : SolvedValues) (ws : Bool)
    (k a : ℤ) :
    rawVal (symVals sv) (BuildWaes.eq4Contrib inst ws k a) =
      Audit.eq4Lhs inst sv ws k a - Audit.eq4Rhs inst sv k a := by
  simp [rawVal, BuildWaes.eq4Contrib, Audit.eq4Lhs, Audit.eq4Rhs,
    List.map_append, List.sum_append, List.map_flatMap, List.map_map,
    Function.comp_def, symVals, untilA1_same, neg_mul, sum_map_neg,
    sum_flatMap, List.sum_map_mul_left, List.sum_map_mul_right, mul_comm,
    sub_eq_add_neg]

theorem eq5_val_eq (inst : InstanceData) (sv : SolvedValues) (ws : Bool)
    (k a : ℤ) :
    rawVal (symVals sv) (BuildWaes.eq5Contrib inst ws k a) =
      Audit.eq5Lhs inst sv ws k a - Audit.eq5Rhs inst sv k a := by
  simp [rawVal, BuildWaes.eq5Contrib, Audit.eq5Lhs, Audit.eq5Rhs,
    List.map_append, List.sum_append, List.map_flatMap, List.map_map,
    Function.comp_def, symVals, untilA2_same, neg_mul, sum_map_neg,
    sum_flatMap, List.sum_map_mul_left, List.sum_map_mul_right, mul_comm,
    sub_eq_add_neg]

theorem eq6_val_eq (inst : InstanceData) (sv : SolvedValues) (k j a : ℤ) :
    rawVal (symVals sv) (BuildWaes.eq6Contrib inst k j a) =
      Audit.eq6Lhs sv k j a - Audit.eq6Rhs inst sv k j a := by
  simp [rawVal, BuildWaes.eq6Contrib, Audit.eq6Lhs, Audit.eq6Rhs,
    List.map_append, List.sum_append, List.map_map, Function.comp_def,
    symVals, one_mul, neg_one_mul, sum_map_neg, sub_eq_add_neg]

theorem eq7_val_eq (inst : InstanceData) (sv : SolvedValues) (i j t : ℤ) :
    rawVal (symVals sv) (BuildWaes.eq7Contrib inst i j t) =
      Audit.eq7Lhs inst sv i j t - sv.y_tj (t, j) := by
  simp [rawVal, BuildWaes.eq7Contrib, Audit.eq7Lhs, List.map_append,
    List.sum_append, List.map_map, Function.comp_def, symVals, one_mul,
    neg_one_mul, sub_eq_add_neg]

theorem eq8_val_eq (inst : InstanceData) (sv : SolvedValues) (i : ℤ) :
    rawVal (symVals sv) (BuildWaes.eq8Contrib inst i) =
      Audit.eq8Lhs inst sv i := by
  simp [rawVal, BuildWaes.eq8Contrib, Audit.eq8Lhs, List.map_flatMap,
    List.map_map, Function.comp_def, symVals, one_mul]

theorem eq9_val_eq (inst : InstanceData) (sv : SolvedValues) (t j : ℤ) :
    rawVal (symVals sv) (BuildWaes.eq9Contrib inst t j) =
      Audit.eq9Lhs inst sv t j - Audit.eq9Rhs inst sv t j := by
  simp [rawVal, BuildWaes.eq9Contrib, Audit.eq9Lhs, Audit.eq9Rhs,
    List.map_append, List.sum_append, List.map_flatMap, List.map_map,
    Function.comp_def, symVals, one_mul, neg_mul, sub_eq_add_neg]
  ring

theorem eq10_val_eq (inst : InstanceData) (sv : SolvedValues) :
    rawVal (symVals sv) (BuildWaes.eq10Contrib inst) =
      Audit.eq10Lhs inst sv - Audit.eq10Rhs inst sv := by
  simp [rawVal, BuildWaes.eq10Contrib, Audit.eq10Lhs, Audit.eq10Rhs,
    List.map_append, List.sum_append, List.map_flatMap, List.map_map,
    Function.comp_def, symVals, one_mul, neg_mul, sum_map_neg, sum_flatMap,
    List.sum_map_mul_left, sub_eq_add_neg]

theorem eq2Issues_nil (inst : InstanceData) (sv : SolvedValues) (ws : Bool)
    (tol : ℚ) (htol : 0 ≤ tol)
    (h : ∀ r ∈ BuildWaes.eq2Rows inst ws, rawRowSat (symVals sv) r = true) :
    Audit.eq2Issues inst sv ws tol = [] := by
  unfold Audit.eq2Issues
  rw [List.flatMap_eq_nil_iff]
  intro i hi
  rw [List.filterMap_eq_nil_iff]
  intro a ha
  have hmem : BuildWaes.eq2Raw inst ws i a ∈ BuildWaes.eq2Rows inst ws := by
    unfold BuildWaes.eq2Rows
    exact List.mem_flatMap.2 ⟨i, hi, List.mem_map.2 ⟨a, ha, rfl⟩⟩
  have hval := rawRowSat_val_val (h _ hmem)
  apply check_eq_none
  rw [← eq2_val_eq, hval]
  simpa using htol

theorem eq3Issues_nil (inst : InstanceData) (sv : SolvedValues) (ws : Bool)
    (tol : ℚ) (htol : 0 ≤ tol)
    (h : ∀ r ∈ BuildWaes.eq3Rows inst ws, rawRowSat (symVals sv) r = true) :
    Audit.eq3Issues inst sv ws tol = [] := by
  unfold Audit.eq3Issues
  rw [List.flatMap_eq_nil_iff]
  intro i hi
  rw [List.filterMap_eq_nil_iff]
  intro a ha
  have hmem : BuildWaes.eq3Raw inst ws i a ∈ BuildWaes.eq3Rows inst ws := by
    unfold BuildWaes.eq3Rows
    exact List.mem_flatMap.2 ⟨i, hi, List.mem_map.2 ⟨a, ha, rfl⟩⟩
  have hval := rawRowSat_val_val (h _ hmem)
  apply check_eq_none
  rw [← eq3_val_eq, hval]
  simpa using htol

theorem eq4Issues_nil (inst : InstanceData) (sv : SolvedValues) (ws : Bool)
    (tol : ℚ) (htol : 0 ≤ tol)
    (h : ∀ r ∈ BuildWaes.eq4Rows inst ws, rawRowSat (symVals sv) r = true) :
    Audit.eq4Issues inst sv ws tol = [] := by
  unfold Audit.eq4Issues
  rw [List.flatMap_eq_nil_iff]
  intro k hk
  rw [List.filterMap_eq_nil_iff]
  intro a ha
  have hmem : BuildWaes.eq4Raw inst ws k a ∈ BuildWaes.eq4Rows inst ws := by
    unfold BuildWaes.eq4Rows
    exact List.mem_flatMap.2 ⟨k, hk, List.mem_map.2 ⟨a, ha, rfl⟩⟩
  have hval := rawRowSat_val_pinf (h _ hmem)
  rw [eq4_val_eq] at hval
  apply check_ge_none
  linarith

theorem eq5Issues_nil (inst : InstanceData) (sv : SolvedValues) (ws : Bool)
    (tol : ℚ) (htol : 0 ≤ tol)
    (h : ∀ r ∈ BuildWaes.eq5Rows inst ws, rawRowSat (symVals sv) r = true) :
    Audit.eq5Issues inst sv ws tol = [] := by
  unfold Audit.eq5Issues
  rw [List.flatMap_eq_nil_iff]
  intro k hk
  rw [List.filterMap_eq_nil_iff]
  intro a ha
  have hmem : BuildWaes.eq5Raw inst ws k a ∈ BuildWaes.eq5Rows inst ws := by
    unfold BuildWaes.eq5Rows
    exact List.mem_flatMap.2 ⟨k, hk, List.mem_map.2 ⟨a, ha, rfl⟩⟩
  have hval := rawRowSat_val_pinf (h _ hmem)
  rw [eq5_val_eq] at hval
  apply check_ge_none
  linarith

theorem eq6Issues_nil (inst : InstanceData) (sv : SolvedValues)
    (tol : ℚ) (htol : 0 ≤ tol)
    (h : ∀ r ∈ BuildWaes.eq6Rows inst, rawRowSat (symVals sv) r = true) :
    Audit.eq6Issues inst sv tol = [] := by
  unfold Audit.eq6Issues
  rw [List.flatMap_eq_nil_iff]
  intro k hk
  rw [List.flatMap_eq_nil_iff]
  intro j hj
  rw [List.filterMap_eq_nil_iff]
  intro a ha
  have hmem : BuildWaes.eq6Raw inst k j a ∈ BuildWaes.eq6Rows inst := by
    unfold BuildWaes.eq6Rows
    exact List.mem_flatMap.2 ⟨k, hk, List.mem_flatMap.2
      ⟨j, hj, List.mem_map.2 ⟨a, ha, rfl⟩⟩⟩
  have hval := rawRowSat_ninf_val (h _ hmem)
  rw [eq6_val_eq] at hval
  apply check_le_none
  linarith

theorem eq7Issues_nil (inst : InstanceData) (sv : SolvedValues)
    (tol : ℚ) (htol : 0 ≤ tol)
    (h : ∀ r ∈ BuildWaes.eq7Rows inst, rawRowSat (symVals sv) r = true) :
    Audit.eq7Issues inst sv tol = [] := by
  unfold Audit.eq7Issues
  rw [List.flatMap_eq_nil_iff]
  intro i hi
  rw [List.flatMap_eq_nil_iff]
  intro j hj
  rw [List.filterMap_eq_nil_iff]
  intro t ht
  have hmem : BuildWaes.eq7Raw inst i j t ∈ BuildWaes.eq7Rows inst := by
    unfold BuildWaes.eq7Rows
    exact List.mem_flatMap.2 ⟨i, hi, List.mem_flatMap.2
      ⟨j, hj, List.mem_map.2 ⟨t, ht, rfl⟩⟩⟩
  have hval := rawRowSat_ninf_val (h _ hmem)
  rw [eq7_val_eq] at hval
  apply check_le_none
  linarith

theorem eq8Issues_nil (inst : InstanceData) (sv : SolvedValues)
    (tol : ℚ) (htol : 0 ≤ tol)
    (h : ∀ r ∈ BuildWaes.eq8Rows inst, rawRowSat (symVals sv) r = true) :
    Audit.eq8Issues inst sv tol = [] := by
  unfold Audit.eq8Issues
  rw [List.filterMap_eq_nil_iff]
  intro i hi
  have hmem : BuildWaes.eq8Raw inst i ∈ BuildWaes.eq8Rows inst := by
    unfold BuildWaes.eq8Rows
    exact List.mem_map.2 ⟨i, hi, rfl⟩
  have hval := rawRowSat_ninf_val (h _ hmem)
  rw [eq8_val_eq] at hval
  apply check_le_none
  linarith

theorem eq9Issues_nil (inst : InstanceData) (sv : SolvedValues)
    (tol : ℚ) (htol : 0 ≤ tol)
    (h : ∀ r ∈ BuildWaes.eq9Rows inst, rawRowSat (symVals sv) r = true) :
    Audit.eq9Issues inst sv tol = [] := by
  unfold Audit.eq9Issues
  rw [List.flatMap_eq_nil_iff]
  intro t ht
  rw [List.filterMap_eq_nil_iff]
  intro j hj
  have hmem : BuildWaes.eq9Raw inst t j ∈ BuildWaes.eq9Rows inst := by
    unfold BuildWaes.eq9Rows
    exact List.mem_flatMap.2 ⟨t, ht, List.mem_map.2 ⟨j, hj, rfl⟩⟩
  have hval := rawRowSat_ninf_val (h _ hmem)
  rw [eq9_val_eq] at hval
  apply check_le_none
  linarith

theorem eq10Issues_nil (inst : InstanceData) (sv : SolvedValues)
    (tol : ℚ) (htol : 0 ≤ tol)
    (h : ∀ r ∈ BuildWaes.eq10Rows inst, rawRowSat (symVals sv) r = true) :
    Audit.eq10Issues inst sv tol = [] := by
  unfold Audit.eq10Issues
  have hmem : BuildWaes.eq10Raw inst ∈ BuildWaes.eq10Rows inst := by
    unfold BuildWaes.eq10Rows
    exact List.mem_singleton.2 rfl
  have hval := rawRowSat_ninf_val (h _ hmem)
  rw [eq10_val_eq] at hval
  rw [check_le_none _ _ (by linarith)]
  rfl

theorem eq11Issues_nil (inst : InstanceData) (sv : SolvedValues)
    (tol : ℚ) (htol : 0 ≤ tol)
    (hx : ∀ key ∈ Audit.xItems inst, ∃ m : ℤ, sv.x_aijk key = (m : ℚ))
    (hyi : ∀ key ∈ Audit.yiItems inst, ∃ m : ℤ, sv.y_tija key = (m : ℚ))
    (hys : ∀ key ∈ Audit.ysItems inst, ∃ m : ℤ, sv.y_tj key = (m : ℚ)) :
    Audit.eq11Issues inst sv tol = [] := by
  unfold Audit.eq11Issues
  have hgap : ∀ x : ℚ, (∃ m : ℤ, x = (m : ℚ)) →
      ∀ eq detail, Audit.check_eq tol eq x ((pyRound x : ℤ) : ℚ) detail = none := by
    rintro x ⟨m, rfl⟩ eq detail
    apply check_eq_none
    rw [pyRound_intCast]
    simpa using htol
  rw [List.filterMap_eq_nil_iff.2 (fun key hk => hgap _ (hx key hk) _ _),
    List.filterMap_eq_nil_iff.2 (fun key hk => hgap _ (hyi key hk) _ _),
    List.filterMap_eq_nil_iff.2 (fun key hk => hgap _ (hys key hk) _ _)]
  rfl

/-- C1 (amended): for every instance and mode, any solved-value assignment over
the full dense symbolic key space whose values are all exact integers and which
exactly satisfies the full coefficient accumulation of every constraint row
built by `build_waes_model` (`rawRows`, i.e. including the contributions that
the `|coeff| <= 1e-12` emission filter of `add_row` later drops) makes
`run_audits` return a report with `passed = true` and an empty issue list, for
any nonnegative tolerance. -/
theorem audit_clean_of_exact_rows (inst : InstanceData) (sv : SolvedValues)
    (ws : Bool) (tol : ℚ) (htol : 0 ≤ tol)
    (hx : ∀ key ∈ Audit.xItems inst, ∃ m : ℤ, sv.x_aijk key = (m : ℚ))
    (hyi : ∀ key ∈ Audit.yiItems inst, ∃ m : ℤ, sv.y_tija key = (m : ℚ))
    (hys : ∀ key ∈ Audit.ysItems inst, ∃ m : ℤ, sv.y_tj key = (m : ℚ))
    (hsat : ∀ r ∈ BuildWaes.rawRows inst ws, rawRowSat (symVals sv) r = true) :
    Audit.run_audits inst sv ws tol = ⟨true, tol, []⟩ := by
  have h2 := eq2Issues_nil inst sv ws tol htol
    (fun r hr => hsat r (by simp [BuildWaes.rawRows, List.mem_append, hr]))
  have h3 := eq3Issues_nil inst sv ws tol htol
    (fun r hr => hsat r (by simp [BuildWaes.rawRows, List.mem_append, hr]))
  have h4 := eq4Issues_nil inst sv ws tol htol
    (fun r hr => hsat r (by simp [BuildWaes.rawRows, List.mem_append, hr]))
  have h5 := eq5Issues_nil inst sv ws tol htol
    (fun r hr => hsat r (by simp [BuildWaes.rawRows, List.mem_append, hr]))
  have h6 := eq6Issues_nil inst sv tol htol
    (fun r hr => hsat r (by simp [BuildWaes.rawRows, List.mem_append, hr]))
  have h7 := eq7Issues_nil inst sv tol htol
    (fun r hr => hsat r (by simp [BuildWaes.rawRows, List.mem_append, hr]))
  have h8 := eq8Issues_nil inst sv tol htol
    (fun r hr => hsat r (by simp [BuildWaes.rawRows, List.mem_append, hr]))
  have h9 := eq9Issues_nil inst sv tol htol
    (fun r hr => hsat r (by simp [BuildWaes.rawRows, List.mem_append, hr]))
  have h10 := eq10Issues_nil inst sv tol htol
    (fun r hr => hsat r (by simp [BuildWaes.rawRows, List.mem_append, hr]))
  have h11 := eq11Issues_nil inst sv tol htol hx hyi hys
  have hall : Audit.allIssues inst sv ws tol = [] := by
    unfold Audit.allIssues
    rw [h2, h3, h4, h5, h6, h7, h8, h9, h10, h11]
    rfl
  unfold Audit.run_audits
  rw [hall]
  rfl

/-- A validated 2-interval instance with a dependent activity whose dependency
share `1e-13` falls below the `1e-12` emission filter of `add_row`. -/
def cexInst : InstanceData :=
  { name := "cex", n := 2, N := [1, 2], M1 := [], M2 := [1], M := [1],
    A := [1, 2], B := [1], C := [2], A1 := [1, 2], A2 := [], T := [1],
    Ga := fun a => if a = 2 then [1] else [],
    d := fun _ => 0,
    s := fun key => if key = (2, 1) then 1/10000000000000 else 0,
    v := fun _ => 0, r := fun _ => 0,
    Ta := fun _ => [1],
    Ht := fun t => if t = 1 then [1, 2] else [],
    c := fun _ => 1, q := 10000000000, p := 0, f := 1,
    Oj := fun _ => [], w := 1, b := fun _ => 1,
    shift_start := fun _ => 1, shift_length := fun _ => 2,
    shift_cost_multiplier := fun _ => 1, paper_objective_tolerance := 1 }

/-- Integer solution for `cexInst`: zero everywhere except
`x[1, 2, 1, 1] = 10^10`, a variable whose only row occurrences are the
dropped `-1e-13` dependency coefficients. -/
def cexSolved : SolvedValues :=
  { mode := "waes", objective := 0,
    x_aijk := fun key => if key = (1, 2, 1, 1) then 10000000000 else 0,
    y_tija := fun _ => 0, y_tj := fun _ => 0, status := "Optimal" }

/-- C1, counterexample: `cexInst` is validated, `cexSolved` is an all-integer
assignment over the dense key space, every constraint row emitted by
`build_waes_model` is exactly satisfied (`rowSat` on the stored CSR
coefficients), yet `run_audits` fails with a nonempty issue list: the audit
re-applies the `1e-13` dependency coefficients that `add_row` dropped. -/
theorem audit_roundtrip_cex :
    validateInstance cexInst = true ∧
    ((BuildWaes.modelRows cexInst false).all
      (rowSat (flatVals cexInst cexSolved)) = true) ∧
    ((Audit.xItems cexInst).all
      (fun key => (cexSolved.x_aijk key).den == 1) = true) ∧
    ((Audit.yiItems cexInst).all
      (fun key => (cexSolved.y_tija key).den == 1) = true) ∧
    ((Audit.ysItems cexInst).all
      (fun key => (cexSolved.y_tj key).den == 1) = true) ∧
    ((Audit.run_audits cexInst cexSolved false (1/10000)).passed = false) ∧
    ((Audit.run_audits cexInst cexSolved false (1/10000)).issues.isEmpty
      = false) := by
  with_unfolding_all decide

/-- The empty (degenerate but well-formed) instance, and the all-zero
solution, used as witness data. -/
def instTrivial : InstanceData :=
  { name := "trivial", n := 0, N := [], M1 := [], M2 := [], M := [], A := [],
    B := [], C := [], A1 := [], A2 := [], T := [],
    Ga := fun _ => [], d := fun _ => 0, s := fun _ => 0, v := fun _ => 0,
    r := fun _ => 0, Ta := fun _ => [], Ht := fun _ => [], c := fun _ => 0,
    q := 1, p := 0, f := 1, Oj := fun _ => [], w := 0, b := fun _ => 0,
    shift_start := fun _ => 1, shift_length := fun _ => 1,
    shift_cost_multiplier := fun _ => 1, paper_objective_tolerance := 1 }

def svZero : SolvedValues :=
  { mode := "waes", objective := 0, x_aijk := fun _ => 0,
    y_tija := fun _ => 0, y_tj := fun _ => 0, status := "Optimal" }

/-- Witness for the amended C1 theorem at a concrete instance. -/
theorem audit_clean_of_exact_rows_witness :
    Audit.run_audits instTrivial svZero false (1/10000) = ⟨true, 1/10000, []⟩ :=
  audit_clean_of_exact_rows instTrivial svZero false (1/10000)
    (by norm_num)
    (fun key _ => ⟨0, rfl⟩) (fun key _ => ⟨0, rfl⟩) (fun key _ => ⟨0, rfl⟩)
    (by with_unfolding_all decide)

theorem mkMap_length {α : Type} (l : List α) (off : ℕ) :
    (BuildWaes.mkMap l off).length = l.length := by
  induction l generalizing off with
  | nil => simp [BuildWaes.mkMap]
  | cons x xs ih => simp [BuildWaes.mkMap, ih]

theorem rangeII_length (lo hi : ℤ) :
    (rangeII lo hi).length = (hi + 1 - lo).toNat := by
  simp [rangeII]

theorem length_flatMap_const {α β : Type} (l : List α) (f : α → List β) (c : ℕ)
    (h : ∀ x ∈ l, (f x).length = c) : (l.flatMap f).length = l.length * c := by
  induction l with
  | nil => simp
  | cons x xs ih =>
    simp only [List.flatMap_cons, List.length_append, List.length_cons,
      h x (by simp), ih (fun y hy => h y (by simp [hy])), Nat.succ_mul]
    omega

theorem xKeys_length (inst : InstanceData) :
    (BuildWaes.xKeys inst).length =
      inst.A.length * (inst.N.length * (inst.M.length * inst.N.length)) := by
  unfold BuildWaes.xKeys
  refine length_flatMap_const _ _ _ (fun a _ => ?_)
  refine length_flatMap_const _ _ _ (fun i _ => ?_)
  refine length_flatMap_const _ _ _ (fun j _ => ?_)
  simp

theorem yiKeys_length (inst : InstanceData) :
    (BuildWaes.yiKeys inst).length =
      inst.T.length * (inst.N.length * (inst.M.length * inst.A.length)) := by
  unfold BuildWaes.yiKeys
  refine length_flatMap_const _ _ _ (fun t _ => ?_)
  refine length_flatMap_const _ _ _ (fun i _ => ?_)
  refine length_flatMap_const _ _ _ (fun j _ => ?_)
  simp

theorem ysKeys_length (inst : InstanceData) :
    (BuildWaes.ysKeys inst).length = inst.T.length * inst.M.length := by
  unfold BuildWaes.ysKeys
  refine length_flatMap_const _ _ _ (fun t _ => ?_)
  simp

theorem modelRows_length (inst : InstanceData) (ws : Bool) :
    (BuildWaes.modelRows inst ws).length =
      inst.N.length * (BuildWaes.set_BA1 inst).length +
      inst.N.length * (BuildWaes.set_BA2 inst).length +
      inst.N.length * (BuildWaes.set_CA1 inst).length +
      inst.N.length * (BuildWaes.set_CA2 inst).length +
      inst.N.length * (inst.M.length * inst.A.length) +
      inst.N.length * (inst.M.length * inst.T.length) +
      inst.N.length +
      inst.T.length * inst.M1.length + 1 := by
  unfold BuildWaes.modelRows BuildWaes.rawRows
  rw [List.length_map]
  simp only [List.length_append]
  have h2 : (BuildWaes.eq2Rows inst ws).length =
      inst.N.length * (BuildWaes.set_BA1 inst).length := by
    unfold BuildWaes.eq2Rows
    exact length_flatMap_const _ _ _ (fun i _ => by simp)
  have h3 : (BuildWaes.eq3Rows inst ws).length =
      inst.N.length * (BuildWaes.set_BA2 inst).length := by
    unfold BuildWaes.eq3Rows
    exact length_flatMap_const _ _ _ (fun i _ => by simp)
  have h4 : (BuildWaes.eq4Rows inst ws).length =
      inst.N.length * (BuildWaes.set_CA1 inst).length := by
    unfold BuildWaes.eq4Rows
    exact length_flatMap_const _ _ _ (fun i _ => by simp)
  have h5 : (BuildWaes.eq5Rows inst ws).length =
      inst.N.length * (BuildWaes.set_CA2 inst).length := by
    unfold BuildWaes.eq5Rows
    exact length_flatMap_const _ _ _ (fun i _ => by simp)
  have h6 : (BuildWaes.eq6Rows inst).length =
      inst.N.length * (inst.M.length * inst.A.length) := by
    unfold BuildWaes.eq6Rows
    refine length_flatMap_const _ _ _ (fun k _ => ?_)
    refine length_flatMap_const _ _ _ (fun j _ => ?_)
    simp
  have h7 : (BuildWaes.eq7Rows inst).length =
      inst.N.length * (inst.M.length * inst.T.length) := by
    unfold BuildWaes.eq7Rows
    refine length_flatMap_const _ _ _ (fun i _ => ?_)
    refine length_flatMap_const _ _ _ (fun j _ => ?_)
    simp
  have h8 : (BuildWaes.eq8Rows inst).length = inst.N.length := by
    unfold BuildWaes.eq8Rows
    simp
  have h9 : (BuildWaes.eq9Rows inst).length =
      inst.T.length * inst.M1.length := by
    unfold BuildWaes.eq9Rows
    exact length_flatMap_const _ _ _ (fun t _ => by simp)
  have h10 : (BuildWaes.eq10Rows inst).length = 1 := by
    unfold BuildWaes.eq10Rows
    simp
  omega

theorem validated_N_range {inst : InstanceData}
    (hv : validateInstance inst = true) : inst.N = rangeII 1 inst.n := by
  unfold validateInstance at hv
  simp only [Bool.and_eq_true] at hv
  have h := hv.1.1.1.1.2
  unfold chkHorizon at h
  exact of_decide_eq_true h

theorem validated_N_length {inst : InstanceData}
    (hv : validateInstance inst = true) : inst.N.length = inst.n.toNat := by
  rw [validated_N_range hv, rangeII_length]
  omega

/-- C2: the WAES (`ws_mode=false`) and WS (`ws_mode=true`, `build_ws_model`)
encodings of a validated instance share the identical variable catalog (names,
kinds, objective coefficients, bounds, and all three key-to-index maps), the
maps have sizes `|A|·n²·|M|`, `|T|·n·|M|·|A|`, `|T|·|M|`, and both encodings
emit the same number of constraint rows. -/
theorem variable_space_invariance (inst : InstanceData)
    (hv : validateInstance inst = true) :
    (BuildWaes.build_waes_model inst false).variable_names =
      (build_ws_model inst).variable_names ∧
    (BuildWaes.build_waes_model inst false).variable_types =
      (build_ws_model inst).variable_types ∧
    (BuildWaes.build_waes_model inst false).objective_coeffs =
      (build_ws_model inst).objective_coeffs ∧
    (BuildWaes.build_waes_model inst false).variable_lb =
      (build_ws_model inst).variable_lb ∧
    (BuildWaes.build_waes_model inst false).variable_ub =
      (build_ws_model inst).variable_ub ∧
    (BuildWaes.build_waes_model inst false).x_aijk =
      (build_ws_model inst).x_aijk ∧
    (BuildWaes.build_waes_model inst false).y_tija =
      (build_ws_model inst).y_tija ∧
    (BuildWaes.build_waes_model inst false).y_tj =
      (build_ws_model inst).y_tj ∧
    (BuildWaes.build_waes_model inst false).x_aijk.length =
      inst.A.length * (inst.n.toNat * (inst.M.length * inst.n.toNat)) ∧
    (BuildWaes.build_waes_model inst false).y_tija.length =
      inst.T.length * (inst.n.toNat * (inst.M.length * inst.A.length)) ∧
    (BuildWaes.build_waes_model inst false).y_tj.length =
      inst.T.length * inst.M.length ∧
    (BuildWaes.build_waes_model inst false).constraint_lb.length =
      (build_ws_model inst).constraint_lb.length := by
  refine ⟨rfl, rfl, rfl, rfl, rfl, rfl, rfl, rfl, ?_, ?_, ?_, ?_⟩
  · show (BuildWaes.mkMap (BuildWaes.xKeys inst) 0).length = _
    rw [mkMap_length, xKeys_length, validated_N_length hv]
  · show (BuildWaes.mkMap (BuildWaes.yiKeys inst) _).length = _
    rw [mkMap_length, yiKeys_length, validated_N_length hv]
  · show (BuildWaes.mkMap (BuildWaes.ysKeys inst) _).length = _
    rw [mkMap_length, ysKeys_length]
  · show ((BuildWaes.modelRows inst false).map _).length =
      ((BuildWaes.modelRows inst true).map _).length
    rw [List.length_map, List.length_map, modelRows_length, modelRows_length]

/-- Witness for C2 at the concrete validated instance `cexInst`. -/
theorem variable_space_invariance_witness :
    (BuildWaes.build_waes_model cexInst false).variable_names =
      (build_ws_model cexInst).variable_names ∧
    (BuildWaes.build_waes_model cexInst false).variable_types =
      (build_ws_model cexInst).variable_types ∧
    (BuildWaes.build_waes_model cexInst false).objective_coeffs =
      (build_ws_model cexInst).objective_coeffs ∧
    (BuildWaes.build_waes_model cexInst false).variable_lb =
      (build_ws_model cexInst).variable_lb ∧
    (BuildWaes.build_waes_model cexInst false).variable_ub =
      (build_ws_model cexInst).variable_ub ∧
    (BuildWaes.build_waes_model cexInst false).x_aijk =
      (build_ws_model cexInst).x_aijk ∧
    (BuildWaes.build_waes_model cexInst false).y_tija =
      (build_ws_model cexInst).y_tija ∧
    (BuildWaes.build_waes_model cexInst false).y_tj =
      (build_ws_model cexInst).y_tj ∧
    (BuildWaes.build_waes_model cexInst false).x_aijk.length =
      cexInst.A.length * (cexInst.n.toNat *
        (cexInst.M.length * cexInst.n.toNat)) ∧
    (BuildWaes.build_waes_model cexInst false).y_tija.length =
      cexInst.T.length * (cexInst.n.toNat *
        (cexInst.M.length * cexInst.A.length)) ∧
    (BuildWaes.build_waes_model cexInst false).y_tj.length =
      cexInst.T.length * cexInst.M.length ∧
    (BuildWaes.build_waes_model cexInst false).constraint_lb.length =
      (build_ws_model cexInst).constraint_lb.length :=
  variable_space_invariance cexInst (by with_unfolding_all decide)

/-- C3: the windowing helpers duplicated between the Encoder module and the
Audit module are extensionally equal on every instance, index, activity and
mode. -/
theorem windowing_lockstep (inst : InstanceData) (i a : ℤ) (ws : Bool) :
    BuildWaes.untilA1 inst i a ws = Audit.untilA1 inst i a ws ∧
    BuildWaes.untilA2 inst i a ws = Audit.untilA2 inst i a ws :=
  ⟨rfl, rfl⟩

/-- C5: the release window never ends before its start
(`release_end(k, a) ≥ k` in both modules), and collapses to `k` exactly when
`r[a] ≤ 0` or `ws_mode=true`. -/
theorem release_window_correct (inst : InstanceData) (k a : ℤ) (ws : Bool) :
    k ≤ BuildWaes.untilA2 inst k a ws ∧
    k ≤ Audit.untilA2 inst k a ws ∧
    ((inst.r a ≤ 0 ∨ ws = true) →
      BuildWaes.untilA2 inst k a ws = k ∧ Audit.untilA2 inst k a ws = k) := by
  unfold BuildWaes.untilA2 Audit.untilA2
  refine ⟨?_, ?_, ?_⟩
  · split_ifs <;> simp
  · split_ifs <;> simp
  · rintro (h | h)
    · constructor <;> split_ifs <;> simp_all
    · subst h
      simp

/-- Witness for C5, discharging the collapse hypothesis with `ws_mode=true`. -/
theorem release_window_correct_witness :
    (instTrivial.r 1 ≤ 0 ∨ true = true) ∧
    BuildWaes.untilA2 instTrivial 1 1 true = 1 ∧
    Audit.untilA2 instTrivial 1 1 true = 1 :=
  ⟨Or.inr rfl, (release_window_correct instTrivial 1 1 true).2.2 (Or.inr rfl)⟩

/-- `cexInst` with a negative deadline offset on activity 2 (still passes
`validate_instance`, which never checks the sign of `v`). -/
def c4Inst : InstanceData :=
  { cexInst with v := fun a => if a = 2 then -1 else 0 }

/-- C4, counterexample: on a validated instance with `v[2] = -1`, interval
`i = 2` has `deadline_end(2, 2) = min(2 - 1, n) = 1 < 2`, refuting the claimed
`deadline_end(i, a) ≥ i` (in both modules). -/
theorem deadline_window_cex :
    validateInstance c4Inst = true ∧ (2 : ℤ) ∈ c4Inst.N ∧
    (2 : ℤ) ∈ c4Inst.A1 ∧
    BuildWaes.untilA1 c4Inst 2 2 false < 2 ∧
    Audit.untilA1 c4Inst 2 2 false < 2 := by
  with_unfolding_all decide

/-- C4 (amended): on a validated instance, for every interval `i ∈ N`,
`deadline_end(i, a) = min(i + v[a], n)` with `ws_mode=false` and
`deadline_end(i, a) = i` with `ws_mode=true`; the lower bound
`deadline_end(i, a) ≥ i` holds provided the deadline offset is nonnegative. -/
theorem deadline_window_correct_amended (inst : InstanceData)
    (hv : validateInstance inst = true) (i a : ℤ) (hi : i ∈ inst.N) :
    BuildWaes.untilA1 inst i a false = min (i + inst.v a) inst.n ∧
    Audit.untilA1 inst i a false = min (i + inst.v a) inst.n ∧
    (0 ≤ inst.v a → i ≤ BuildWaes.untilA1 inst i a false) ∧
    BuildWaes.untilA1 inst i a true = i ∧
    Audit.untilA1 inst i a true = i := by
  have hiN : 1 ≤ i ∧ i ≤ inst.n := by
    have h := validated_N_range hv
    rw [h] at hi
    exact mem_rangeII.1 hi
  refine ⟨rfl, rfl, ?_, ?_, ?_⟩
  · intro hva
    have hdef : BuildWaes.untilA1 inst i a false = min (i + inst.v a) inst.n :=
      rfl
    rw [hdef]
    exact le_min (by omega) hiN.2
  · have hdef : BuildWaes.untilA1 inst i a true = min (i + 0) inst.n := rfl
    rw [hdef]
    omega
  · have hdef : Audit.untilA1 inst i a true = min (i + 0) inst.n := rfl
    rw [hdef]
    omega

/-- Witness for the amended C4 at `cexInst` (where `v ≡ 0`), interval 2. -/
theorem deadline_window_correct_amended_witness :
    0 ≤ cexInst.v 1 ∧ (2 : ℤ) ≤ BuildWaes.untilA1 cexInst 2 1 false :=
  ⟨by decide,
   (deadline_window_correct_amended cexInst (by with_unfolding_all decide) 2 1
      (by decide)).2.2.1 (by decide)⟩

theorem finalize_zero_contrib (inst : InstanceData)
    (contrib : List (VarKey × ℚ)) (lb ub : Bnd)
    (h : ∀ pr ∈ contrib, pr.2 = 0) :
    BuildWaes.finalizeRow inst ⟨contrib, lb, ub⟩ = ⟨[], lb, ub⟩ := by
  unfold BuildWaes.finalizeRow
  simp only [BuildWaes.Row.mk.injEq, and_true, and_self]
  refine List.filterMap_eq_nil_iff.2 (fun k _ => ?_)
  have hval : BuildWaes.groupVal (BuildWaes.flatOf inst contrib) k = 0 := by
    unfold BuildWaes.groupVal
    apply List.sum_eq_zero
    intro x hx
    simp only [List.mem_map, List.mem_filter, BuildWaes.flatOf] at hx
    obtain ⟨pr, ⟨⟨q, hq, rfl⟩, _⟩, rfl⟩ := hx
    exact h q hq
  rw [hval]
  simp [BuildWaes.eps12]

/-- `cexInst` with zero coverage everywhere: every family (1) window is
degenerate. -/
def c7Inst : InstanceData := { cexInst with b := fun _ => 0 }

theorem mkMap_mem {α : Type} {l : List α} {off : ℕ} {p : α × ℕ}
    (h : p ∈ BuildWaes.mkMap l off) :
    ∃ idx, l[idx]? = some p.1 ∧ p.2 = off + idx := by
  induction l generalizing off with
  | nil => simp [BuildWaes.mkMap] at h
  | cons x xs ih =>
    simp only [BuildWaes.mkMap, List.mem_cons] at h
    rcases h with h | h
    · exact ⟨0, by simp [h]⟩
    · obtain ⟨idx, h1, h2⟩ := ih h
      exact ⟨idx + 1, by simpa using h1, by omega⟩

/-- C8: the payload sent to the solver always has `maximize = false`, every
`x[a,i,j,k]` and `y_assign[t,i,j,a]` variable has objective coefficient
exactly zero, and every shift-headcount variable `y_shift[t,j]` has objective
coefficient `c[t] * shift_cost_multiplier[j]`. -/
theorem objective_construction (inst : InstanceData) (ws : Bool)
    (cfg : List (String × String)) :
    ((BuildWaes.build_waes_model inst ws).to_server_payload cfg).maximize
      = false ∧
    (∀ pr ∈ (BuildWaes.build_waes_model inst ws).x_aijk,
      (BuildWaes.build_waes_model inst ws).objective_coeffs.getD pr.2 0
        = 0) ∧
    (∀ pr ∈ (BuildWaes.build_waes_model inst ws).y_tija,
      (BuildWaes.build_waes_model inst ws).objective_coeffs.getD pr.2 0
        = 0) ∧
    (∀ pr ∈ (BuildWaes.build_waes_model inst ws).y_tj,
      (BuildWaes.build_waes_model inst ws).objective_coeffs.getD pr.2 0
        = inst.c pr.1.1 * inst.shift_cost_multiplier pr.1.2) := by
  have hnx : (BuildWaes.xKeys inst).length = BuildWaes.nX inst := rfl
  have hni : (BuildWaes.yiKeys inst).length = BuildWaes.nYI inst := rfl
  refine ⟨rfl, ?_, ?_, ?_⟩
  · intro pr hpr
    obtain ⟨idx, hget, hidx⟩ := mkMap_mem hpr
    obtain ⟨hlt, -⟩ := List.getElem?_eq_some_iff.1 hget
    show (((BuildWaes.xKeys inst).map fun _ => (0 : ℚ)) ++
      ((BuildWaes.yiKeys inst).map fun _ => (0 : ℚ)) ++
      ((BuildWaes.ysKeys inst).map fun p =>
        inst.c p.1 * inst.shift_cost_multiplier p.2)).getD pr.2 0 = 0
    rw [List.getD_eq_getElem?_getD, hidx, Nat.zero_add]
    simp only [List.getElem?_append, List.length_map, List.length_append]
    rw [if_pos (by omega), if_pos hlt]
    rw [List.getElem?_map, hget]
    rfl
  · intro pr hpr
    obtain ⟨idx, hget, hidx⟩ := mkMap_mem hpr
    obtain ⟨hlt, -⟩ := List.getElem?_eq_some_iff.1 hget
    show (((BuildWaes.xKeys inst).map fun _ => (0 : ℚ)) ++
      ((BuildWaes.yiKeys inst).map fun _ => (0 : ℚ)) ++
      ((BuildWaes.ysKeys inst).map fun p =>
        inst.c p.1 * inst.shift_cost_multiplier p.2)).getD pr.2 0 = 0
    rw [List.getD_eq_getElem?_getD, hidx]
    simp only [List.getElem?_append, List.length_map, List.length_append, hnx,
      hni]
    rw [if_pos (by omega), if_neg (by omega)]
    rw [show BuildWaes.nX inst + idx - BuildWaes.nX inst = idx from by omega]
    rw [List.getElem?_map, hget]
    rfl
  · intro pr hpr
    obtain ⟨idx, hget, hidx⟩ := mkMap_mem hpr
    obtain ⟨hlt, -⟩ := List.getElem?_eq_some_iff.1 hget
    show (((BuildWaes.xKeys inst).map fun _ => (0 : ℚ)) ++
      ((BuildWaes.yiKeys inst).map fun _ => (0 : ℚ)) ++
      ((BuildWaes.ysKeys inst).map fun p =>
        inst.c p.1 * inst.shift_cost_multiplier p.2)).getD pr.2 0 = _
    rw [List.getD_eq_getElem?_getD, hidx]
    simp only [List.getElem?_append, List.length_map, List.length_append, hnx,
      hni]
    rw [if_neg (by omega)]
    rw [show BuildWaes.nX inst + BuildWaes.nYI inst + idx -
      (BuildWaes.nX inst + BuildWaes.nYI inst) = idx from by omega]
    rw [List.getElem?_map, hget]
    rfl

/-- Witness for C8 at `cexInst`, checking one key of each catalog. -/
theorem objective_construction_witness :
    ((BuildWaes.build_waes_model cexInst false).to_server_payload []).maximize
      = false ∧
    (((1 : ℤ), (1 : ℤ), (1 : ℤ), (1 : ℤ)), 0) ∈
      (BuildWaes.build_waes_model cexInst false).x_aijk ∧
    (BuildWaes.build_waes_model cexInst false).objective_coeffs.getD 0 0
      = 0 ∧
    (((1 : ℤ), (1 : ℤ)), 12) ∈
      (BuildWaes.build_waes_model cexInst false).y_tj ∧
    (BuildWaes.build_waes_model cexInst false).objective_coeffs.getD 12 0
      = cexInst.c 1 * cexInst.shift_cost_multiplier 1 :=
  ⟨(objective_construction cexInst false []).1,
   by with_unfolding_all decide,
   by
     have h := (objective_construction cexInst false []).2.1
       (((1 : ℤ), (1 : ℤ), (1 : ℤ), (1 : ℤ)), 0)
       (by with_unfolding_all decide)
     exact h,
   by with_unfolding_all decide,
   by
     have h := (objective_construction cexInst false []).2.2.2
       (((1 : ℤ), (1 : ℤ)), 12) (by with_unfolding_all decide)
     exact h⟩

/-- Minimal validated instance for the integrality-threshold check: one
interval, one shift with zero coverage, one activity with zero demand. -/
def c9Inst : InstanceData :=
  { name := "c9", n := 1, N := [1], M1 := [], M2 := [1], M := [1],
    A := [1], B := [1], C := [], A1 := [1], A2 := [], T := [1],
    Ga := fun _ => [], d := fun _ => 0, s := fun _ => 0, v := fun _ => 0,
    r := fun _ => 0, Ta := fun _ => [1], Ht := fun _ => [1], c := fun _ => 1,
    q := 10, p := 0, f := 1, Oj := fun _ => [], w := 1, b := fun _ => 0,
    shift_start := fun _ => 2, shift_length := fun _ => 1,
    shift_cost_multiplier := fun _ => 1, paper_objective_tolerance := 1 }

/-- Solution for `c9Inst` with a chosen value on `x[1,1,1,1]` and integral
staffing that satisfies families (2)-(10) with slack. -/
def c9Solved (xval : ℚ) : SolvedValues :=
  { mode := "waes", objective := 0,
    x_aijk := fun key => if key = (1, 1, 1, 1) then xval else 0,
    y_tija := fun _ => 3, y_tj := fun _ => 3, status := "Optimal" }

/-- C9: at tolerance `1e-4`, a solved value of `2.00004` produces no issue at
all (in particular no Eq(11) issue), while `2.0002` produces exactly one
Eq(11)-tagged issue and fails the audit: each value is compared to its nearest
integer and only a distance strictly above the tolerance is recorded. -/
theorem integrality_threshold :
    validateInstance c9Inst = true ∧
    (Audit.run_audits c9Inst (c9Solved (200004/100000)) false
      (1/10000)).issues = [] ∧
    (Audit.run_audits c9Inst (c9Solved (200004/100000)) false
      (1/10000)).passed = true ∧
    ((Audit.run_audits c9Inst (c9Solved (20002/10000)) false
      (1/10000)).issues.filter
        (fun is => is.equation == "Eq(11)")).length = 1 ∧
    (Audit.run_audits c9Inst (c9Solved (20002/10000)) false
      (1/10000)).passed = false := by
  with_unfolding_all decide

theorem mkMap_filter_not_mem {α : Type} [DecidableEq α] {l : List α} {k : α}
    (h : k ∉ l) (off : ℕ) :
    (BuildWaes.mkMap l off).filter (fun p => decide (p.1 = k)) = [] := by
  induction l generalizing off with
  | nil => simp [BuildWaes.mkMap]
  | cons x xs ih =>
    have hx : x ≠ k := fun hxk => h (hxk ▸ List.mem_cons_self x xs)
    have hxs : k ∉ xs := fun hk => h (List.mem_cons_of_mem x hk)
    simp only [BuildWaes.mkMap, List.filter_cons]
    rw [if_neg (by simp [hx])]
    exact ih hxs _

theorem dictGet_not_mem {α : Type} [DecidableEq α] {l : List α} {k : α}
    (h : k ∉ l) (off : ℕ) :
    BuildWaes.dictGet (BuildWaes.mkMap l off) k = 0 := by
  unfold BuildWaes.dictGet
  rw [mkMap_filter_not_mem h off]
  rfl

/-- Position of the (unique, under `Nodup`) occurrence of a key in a list. -/
def idxOfD {α : Type} [DecidableEq α] : List α → α → ℕ
  | [], _ => 0
  | x :: xs, k => if x = k then 0 else idxOfD xs k + 1

theorem idxOfD_lt_length {α : Type} [DecidableEq α] {l : List α} {k : α}
    (h : k ∈ l) : idxOfD l k < l.length := by
  induction l with
  | nil => simp at h
  | cons x xs ih =>
    by_cases hx : x = k
    · simp [idxOfD, hx]
    · have hm : k ∈ xs := by
        rcases List.mem_cons.1 h with h1 | h1
        · exact absurd h1.symm hx
        · exact h1
      have := ih hm
      simp only [idxOfD, if_neg hx, List.length_cons]
      omega

theorem idxOfD_inj {α : Type} [DecidableEq α] {l : List α} (hnd : l.Nodup)
    {k1 k2 : α} (h1 : k1 ∈ l) (h2 : k2 ∈ l)
    (he : idxOfD l k1 = idxOfD l k2) : k1 = k2 := by
  induction l with
  | nil => simp at h1
  | cons x xs ih =>
    by_cases hx1 : x = k1 <;> by_cases hx2 : x = k2
    · rw [← hx1, ← hx2]
    · simp only [idxOfD, if_pos hx1, if_neg hx2] at he
      omega
    · simp only [idxOfD, if_neg hx1, if_pos hx2] at he
      omega
    · have m1 : k1 ∈ xs := by
        rcases List.mem_cons.1 h1 with h | h
        · exact absurd h.symm hx1
        · exact h
      have m2 : k2 ∈ xs := by
        rcases List.mem_cons.1 h2 with h | h
        · exact absurd h.symm hx2
        · exact h
      simp only [idxOfD, if_neg hx1, if_neg hx2, Nat.add_right_cancel_iff]
        at he
      exact ih (List.nodup_cons.1 hnd).2 m1 m2 he

theorem dictGet_mkMap_nodup {α : Type} [DecidableEq α] {l : List α}
    (hnd : l.Nodup) {k : α} (hk : k ∈ l) (off : ℕ) :
    BuildWaes.dictGet (BuildWaes.mkMap l off) k = off + idxOfD l k := by
  induction l generalizing off with
  | nil => simp at hk
  | cons x xs ih =>
    by_cases hx : x = k
    · subst hx
      have hxs : x ∉ xs := (List.nodup_cons.1 hnd).1
      unfold BuildWaes.dictGet
      simp only [BuildWaes.mkMap, List.filter_cons]
      rw [if_pos (by simp)]
      rw [mkMap_filter_not_mem hxs _]
      simp [idxOfD]
    · have hkxs : k ∈ xs := by
        rcases List.mem_cons.1 hk with h | h
        · exact absurd h.symm hx
        · exact h
      have hnds : xs.Nodup := (List.nodup_cons.1 hnd).2
      unfold BuildWaes.dictGet
      simp only [BuildWaes.mkMap, List.filter_cons]
      rw [if_neg (by simp [hx])]
      have := ih hnds hkxs (off + 1)
      unfold BuildWaes.dictGet at this
      rw [this]
      simp only [idxOfD, if_neg hx]
      omega

theorem nodup_flatMap_proj {α β : Type} (l : List α) (f : α → List β)
    (g : β → α) (hn : ∀ x ∈ l, (f x).Nodup)
    (hg : ∀ x ∈ l, ∀ y ∈ f x, g y = x) (hl : l.Nodup) :
    (l.flatMap f).Nodup := by
  induction l with
  | nil => simp
  | cons x xs ih =>
    rw [List.flatMap_cons, List.nodup_append]
    refine ⟨hn x (by simp), ?_, ?_⟩
    · exact ih (fun y hy => hn y (by simp [hy]))
        (fun y hy => hg y (by simp [hy])) (List.nodup_cons.1 hl).2
    · intro b hb1 hb2
      obtain ⟨x', hx', hb'⟩ := List.mem_flatMap.1 hb2
      have h1 : g b = x := hg x (by simp) b hb1
      have h2 : g b = x' := hg x' (by simp [hx']) b hb'
      exact (List.nodup_cons.1 hl).1 (h1 ▸ h2 ▸ hx')

theorem flatMap_single {α β : Type} [DecidableEq α] {l : List α} {x : α}
    (hnd : l.Nodup) (hx : x ∈ l) (g : α → List β)
    (hz : ∀ y ∈ l, y ≠ x → g y = []) : l.flatMap g = g x := by
  induction l with
  | nil => simp at hx
  | cons y ys ih =>
    rw [List.flatMap_cons]
    by_cases hyx : y = x
    · subst hyx
      have : ys.flatMap g = [] := by
        rw [List.flatMap_eq_nil_iff]
        intro z hz'
        exact hz z (by simp [hz']) (fun hzy =>
          (List.nodup_cons.1 hnd).1 (hzy ▸ hz'))
      rw [this, List.append_nil]
    · have hxys : x ∈ ys := by
        rcases List.mem_cons.1 hx with h | h
        · exact absurd h.symm hyx
        · exact h
      rw [hz y (by simp) hyx, List.nil_append]
      exact ih (List.nodup_cons.1 hnd).2 hxys
        (fun z hz' => hz z (by simp [hz']))

theorem filter_eq_singleton {α : Type} [DecidableEq α] {l : List α} {x : α}
    (hnd : l.Nodup) (hx : x ∈ l) :
    l.filter (fun y => decide (y = x)) = [x] := by
  induction l with
  | nil => simp at hx
  | cons y ys ih =>
    rw [List.filter_cons]
    by_cases hyx : y = x
    · subst hyx
      rw [if_pos (by simp)]
      have : ys.filter (fun z => decide (z = y)) = [] := by
        rw [List.filter_eq_nil_iff]
        intro z hz
        simp only [decide_eq_true_eq]
        exact fun hzy => (List.nodup_cons.1 hnd).1 (hzy ▸ hz)
      rw [this]
    · have hxys : x ∈ ys := by
        rcases List.mem_cons.1 hx with h | h
        · exact absurd h.symm hyx
        · exact h
      rw [if_neg (by simp [hyx])]
      exact ih (List.nodup_cons.1 hnd).2 hxys

theorem xKeys_nodup (inst : InstanceData) (hA : inst.A.Nodup)
    (hN : inst.N.Nodup) (hM : inst.M.Nodup) :
    (BuildWaes.xKeys inst).Nodup := by
  unfold BuildWaes.xKeys
  refine nodup_flatMap_proj _ _ (fun p => p.1) ?_ ?_ hA
  · intro a _
    refine nodup_flatMap_proj _ _ (fun p => p.2.1) ?_ ?_ hN
    · intro i _
      refine nodup_flatMap_proj _ _ (fun p => p.2.2.1) ?_ ?_ hM
      · intro j _
        exact List.Nodup.map (fun k1 k2 h => by simpa using h) hN
      · intro j _ y hy
        obtain ⟨k, -, rfl⟩ := List.mem_map.1 hy
        rfl
    · intro i _ y hy
      obtain ⟨j, -, hy'⟩ := List.mem_flatMap.1 hy
      obtain ⟨k, -, rfl⟩ := List.mem_map.1 hy'
      rfl
  · intro a _ y hy
    obtain ⟨i, -, hy1⟩ := List.mem_flatMap.1 hy
    obtain ⟨j, -, hy2⟩ := List.mem_flatMap.1 hy1
    obtain ⟨k, -, rfl⟩ := List.mem_map.1 hy2
    rfl

theorem yiKeys_nodup (inst : InstanceData) (hT : inst.T.Nodup)
    (hN : inst.N.Nodup) (hM : inst.M.Nodup) (hA : inst.A.Nodup) :
    (BuildWaes.yiKeys inst).Nodup := by
  unfold BuildWaes.yiKeys
  refine nodup_flatMap_proj _ _ (fun p => p.1) ?_ ?_ hT
  · intro t _
    refine nodup_flatMap_proj _ _ (fun p => p.2.1) ?_ ?_ hN
    · intro i _
      refine nodup_flatMap_proj _ _ (fun p => p.2.2.1) ?_ ?_ hM
      · intro j _
        exact List.Nodup.map (fun a1 a2 h => by simpa using h) hA
      · intro j _ y hy
        obtain ⟨a, -, rfl⟩ := List.mem_map.1 hy
        rfl
    · intro i _ y hy
      obtain ⟨j, -, hy'⟩ := List.mem_flatMap.1 hy
      obtain ⟨a, -, rfl⟩ := List.mem_map.1 hy'
      rfl
  · intro t _ y hy
    obtain ⟨i, -, hy1⟩ := List.mem_flatMap.1 hy
    obtain ⟨j, -, hy2⟩ := List.mem_flatMap.1 hy1
    obtain ⟨a, -, rfl⟩ := List.mem_map.1 hy2
    rfl

theorem xKeys_mem (inst : InstanceData) {a i j k : ℤ} (ha : a ∈ inst.A)
    (hi : i ∈ inst.N) (hj : j ∈ inst.M) (hk : k ∈ inst.N) :
    ((a, i, j, k) : ℤ × ℤ × ℤ × ℤ) ∈ BuildWaes.xKeys inst := by
  unfold BuildWaes.xKeys
  exact List.mem_flatMap.2 ⟨a, ha, List.mem_flatMap.2 ⟨i, hi,
    List.mem_flatMap.2 ⟨j, hj, List.mem_map.2 ⟨k, hk, rfl⟩⟩⟩⟩

theorem yiKeys_mem (inst : InstanceData) {t i j a : ℤ} (ht : t ∈ inst.T)
    (hi : i ∈ inst.N) (hj : j ∈ inst.M) (ha : a ∈ inst.A) :
    ((t, i, j, a) : ℤ × ℤ × ℤ × ℤ) ∈ BuildWaes.yiKeys inst := by
  unfold BuildWaes.yiKeys
  exact List.mem_flatMap.2 ⟨t, ht, List.mem_flatMap.2 ⟨i, hi,
    List.mem_flatMap.2 ⟨j, hj, List.mem_map.2 ⟨a, ha, rfl⟩⟩⟩⟩

theorem validated_Ta_T {inst : InstanceData} (hv : validateInstance inst = true)
    {a t' : ℤ} (ha : a ∈ inst.A) (hta : t' ∈ inst.Ta a) :
    t' ∈ inst.T ∧ a ∈ inst.Ht t' := by
  simp only [validateInstance, Bool.and_eq_true] at hv
  have hc := hv.1.1.2
  simp only [chkCapability, Bool.and_eq_true, List.all_eq_true] at hc
  have h := hc.1.2 a ha t' hta
  simp only [Bool.and_eq_true, decide_eq_true_eq] at h
  exact h

theorem validated_Ht_A {inst : InstanceData} (hv : validateInstance inst = true)
    {t' a : ℤ} (ht : t' ∈ inst.T) (hha : a ∈ inst.Ht t') :
    a ∈ inst.A ∧ t' ∈ inst.Ta a := by
  simp only [validateInstance, Bool.and_eq_true] at hv
  have hc := hv.1.1.2
  simp only [chkCapability, Bool.and_eq_true, List.all_eq_true] at hc
  have h := hc.2 t' ht a hha
  simp only [Bool.and_eq_true, decide_eq_true_eq] at h
  exact h

theorem validated_M1_M {inst : InstanceData} (hv : validateInstance inst = true)
    {j : ℤ} (hj : j ∈ inst.M1) : j ∈ inst.M := by
  simp only [validateInstance, Bool.and_eq_true] at hv
  have hp := hv.1.1.1.1.1
  simp only [chkPartitions, Bool.and_eq_true, List.all_eq_true] at hp
  have h := hp.1.1.1.1.1.1.1.1.1.2 j hj
  simpa using h

theorem validated_Oj_N {inst : InstanceData} (hv : validateInstance inst = true)
    {j x : ℤ} (hj : j ∈ inst.M1) (hx : x ∈ inst.Oj j) : x ∈ inst.N := by
  simp only [validateInstance, Bool.and_eq_true] at hv
  have hb := hv.1.2
  simp only [chkBreakWindows, Bool.and_eq_true, List.all_eq_true] at hb
  have h := (hb j hj).2 x hx
  simpa using h

theorem validated_N_nodup {inst : InstanceData}
    (hv : validateInstance inst = true) : inst.N.Nodup := by
  rw [validated_N_range hv]
  exact rangeII_nodup 1 inst.n

/-- The emitted row stores a (necessarily nonzero) coefficient for flat
variable index `idx`. -/
def mentionsVar (idx : ℕ) (r : BuildWaes.Row) : Bool :=
  r.coeffs.any (fun pc => decide (pc.1 = idx))

theorem ysKeys_nodup (inst : InstanceData) (hT : inst.T.Nodup)
    (hM : inst.M.Nodup) : (BuildWaes.ysKeys inst).Nodup := by
  unfold BuildWaes.ysKeys
  refine nodup_flatMap_proj _ _ (fun p => p.1) ?_ ?_ hT
  · intro t _
    exact List.Nodup.map (fun j1 j2 h => by simpa using h) hM
  · intro t _ y hy
    obtain ⟨jj, -, rfl⟩ := List.mem_map.1 hy
    rfl

theorem mentions_finalize_imp {inst : InstanceData} {raw : BuildWaes.RawRow}
    {idx : ℕ} (h : mentionsVar idx (BuildWaes.finalizeRow inst raw) = true) :
    ∃ pr ∈ raw.contrib, BuildWaes.varIndex inst pr.1 = idx := by
  unfold mentionsVar BuildWaes.finalizeRow at h
  simp only [List.any_eq_true, decide_eq_true_eq] at h
  obtain ⟨pc, hpc, heq⟩ := h
  obtain ⟨k, hk, hsome⟩ := List.mem_filterMap.1 hpc
  have hkeq : k = pc.1 := by
    by_cases hc : |BuildWaes.groupVal (BuildWaes.flatOf inst raw.contrib) k| ≤
        BuildWaes.eps12
    · rw [if_pos hc] at hsome
      cases hsome
    · rw [if_neg hc] at hsome
      cases hsome
      rfl
  rw [List.mem_insertionSort, List.mem_dedup] at hk
  obtain ⟨pr', hpr', hfst⟩ := List.mem_map.1 hk
  obtain ⟨pr, hpr, rfl⟩ := List.mem_map.1 hpr'
  have hfst' : BuildWaes.varIndex inst pr.1 = k := hfst
  exact ⟨pr, hpr, by rw [hfst', hkeq, heq]⟩

theorem mentions_of_group {inst : InstanceData} {raw : BuildWaes.RawRow}
    {idx : ℕ}
    (hmem : idx ∈ (BuildWaes.flatOf inst raw.contrib).map Prod.fst)
    (hval : ¬ |BuildWaes.groupVal (BuildWaes.flatOf inst raw.contrib) idx| ≤
      BuildWaes.eps12) :
    mentionsVar idx (BuildWaes.finalizeRow inst raw) = true := by
  unfold mentionsVar BuildWaes.finalizeRow
  simp only [List.any_eq_true, decide_eq_true_eq]
  refine ⟨(idx, BuildWaes.groupVal (BuildWaes.flatOf inst raw.contrib) idx),
    ?_, rfl⟩
  refine List.mem_filterMap.2 ⟨idx, ?_, ?_⟩
  · rw [List.mem_insertionSort, List.mem_dedup]
    exact hmem
  · rw [if_neg hval]

theorem filter_singleton_of {α : Type} [DecidableEq α] {l : List α} {x : α}
    (hnd : l.Nodup) (hx : x ∈ l) (q : α → Bool) (hqx : q x = true)
    (hqo : ∀ y ∈ l, y ≠ x → q y = false) : l.filter q = [x] := by
  induction l with
  | nil => simp at hx
  | cons y ys ih =>
    rw [List.filter_cons]
    by_cases hyx : y = x
    · subst hyx
      rw [if_pos hqx]
      have : ys.filter q = [] := by
        rw [List.filter_eq_nil_iff]
        intro z hz
        have hzx : z ≠ y := fun hzy =>
          (List.nodup_cons.1 hnd).1 (hzy ▸ hz)
        simp [hqo z (by simp [hz]) hzx]
      rw [this]
    · have hxys : x ∈ ys := by
        rcases List.mem_cons.1 hx with h | h
        · exact absurd h.symm hyx
        · exact h
      rw [if_neg (by simp [hqo y (by simp) hyx])]
      exact ih (List.nodup_cons.1 hnd).2 hxys
        (fun z hz => hqo z (by simp [hz]))

/-- C10: for a validated instance (with duplicate-free index sets), either
mode, and an incapable combination `t ∉ Ta[a]`, the variable
`y_assign[t,i,j,a]` carries a nonzero coefficient in exactly one emitted
constraint row of the model: the Eq. (8) global concurrency-cap row of
interval `i`; in particular no Eq. (6) capacity-coupling, Eq. (7)
shift-coupling, or Eq. (9) break-window row mentions it. -/
theorem incapable_assignment_single_row (inst : InstanceData)
    (hv : validateInstance inst = true) (hA : inst.A.Nodup)
    (hM : inst.M.Nodup) (hT : inst.T.Nodup) (ws : Bool)
    (t i j a : ℤ) (ht : t ∈ inst.T) (hi : i ∈ inst.N) (hj : j ∈ inst.M)
    (ha : a ∈ inst.A) (hcap : t ∉ inst.Ta a) :
    (BuildWaes.modelRows inst ws).filter
      (mentionsVar (BuildWaes.varIndex inst (VarKey.ya t i j a))) =
      [BuildWaes.finalizeRow inst (BuildWaes.eq8Raw inst i)] := by
  have hN : inst.N.Nodup := validated_N_nodup hv
  have hyiN := yiKeys_nodup inst hT hN hM hA
  have hxN := xKeys_nodup inst hA hN hM
  have hysN := ysKeys_nodup inst hT hM
  have hκ : ((t, i, j, a) : ℤ × ℤ × ℤ × ℤ) ∈ BuildWaes.yiKeys inst :=
    yiKeys_mem inst ht hi hj ha
  have hxlen : (BuildWaes.xKeys inst).length = BuildWaes.nX inst := rfl
  have hyilen : (BuildWaes.yiKeys inst).length = BuildWaes.nYI inst := rfl
  have hidx_val : BuildWaes.varIndex inst (VarKey.ya t i j a) =
      BuildWaes.nX inst + idxOfD (BuildWaes.yiKeys inst) (t, i, j, a) :=
    dictGet_mkMap_nodup hyiN hκ _
  have hnxpos : 0 < BuildWaes.nX inst := by
    rw [← hxlen]
    exact List.length_pos_of_mem (xKeys_mem inst ha hi hj hi)
  have hioflt : idxOfD (BuildWaes.yiKeys inst)
      ((t, i, j, a) : ℤ × ℤ × ℤ × ℤ) < BuildWaes.nYI inst := by
    rw [← hyilen]
    exact idxOfD_lt_length hκ
  have hxv_ne : ∀ a' i' j' k',
      BuildWaes.varIndex inst (VarKey.xv a' i' j' k') ≠
      BuildWaes.varIndex inst (VarKey.ya t i j a) := by
    intro a' i' j' k'
    show BuildWaes.dictGet (BuildWaes.mkMap (BuildWaes.xKeys inst) 0)
        (a', i', j', k') ≠ _
    by_cases hm : ((a', i', j', k') : ℤ × ℤ × ℤ × ℤ) ∈ BuildWaes.xKeys inst
    · rw [dictGet_mkMap_nodup hxN hm 0, hidx_val]
      have h2 := idxOfD_lt_length hm
      rw [hxlen] at h2
      omega
    · rw [dictGet_not_mem hm 0, hidx_val]
      omega
  have hys_ne : ∀ t' j',
      BuildWaes.varIndex inst (VarKey.ys t' j') ≠
      BuildWaes.varIndex inst (VarKey.ya t i j a) := by
    intro t' j'
    show BuildWaes.dictGet (BuildWaes.mkMap (BuildWaes.ysKeys inst)
        (BuildWaes.nX inst + BuildWaes.nYI inst)) (t', j') ≠ _
    by_cases hm : ((t', j') : ℤ × ℤ) ∈ BuildWaes.ysKeys inst
    · rw [dictGet_mkMap_nodup hysN hm _, hidx_val]
      omega
    · rw [dictGet_not_mem hm _, hidx_val]
      omega
  have hya_eq : ∀ t' i' j' a', t' ∈ inst.T → i' ∈ inst.N → j' ∈ inst.M →
      a' ∈ inst.A →
      (BuildWaes.varIndex inst (VarKey.ya t' i' j' a') =
        BuildWaes.varIndex inst (VarKey.ya t i j a) ↔
        t' = t ∧ i' = i ∧ j' = j ∧ a' = a) := by
    intro t' i' j' a' ht' hi' hj' ha'
    have hm := yiKeys_mem inst ht' hi' hj' ha'
    constructor
    · intro h
      have h2 : BuildWaes.dictGet (BuildWaes.mkMap (BuildWaes.yiKeys inst)
          (BuildWaes.nX inst)) (t', i', j', a') =
          BuildWaes.varIndex inst (VarKey.ya t i j a) := h
      rw [dictGet_mkMap_nodup hyiN hm _, hidx_val] at h2
      have h3 : idxOfD (BuildWaes.yiKeys inst)
          ((t', i', j', a') : ℤ × ℤ × ℤ × ℤ) =
          idxOfD (BuildWaes.yiKeys inst) ((t, i, j, a) : ℤ × ℤ × ℤ × ℤ) := by
        omega
      have h4 := idxOfD_inj hyiN hm hκ h3
      simpa using h4
    · rintro ⟨rfl, rfl, rfl, rfl⟩
      rfl
  have hno : ∀ raw : BuildWaes.RawRow,
      (∀ pr ∈ raw.contrib, BuildWaes.varIndex inst pr.1 ≠
        BuildWaes.varIndex inst (VarKey.ya t i j a)) →
      mentionsVar (BuildWaes.varIndex inst (VarKey.ya t i j a))
        (BuildWaes.finalizeRow inst raw) = false := by
    intro raw hall
    by_contra hmen
    rw [Bool.not_eq_false] at hmen
    obtain ⟨pr, hpr, heq⟩ := mentions_finalize_imp hmen
    exact hall pr hpr heq
  have hnot2 : ∀ r ∈ BuildWaes.eq2Rows inst ws,
      mentionsVar (BuildWaes.varIndex inst (VarKey.ya t i j a))
        (BuildWaes.finalizeRow inst r) = false := by
    intro r hr
    obtain ⟨i', -, hr2⟩ := List.mem_flatMap.1 hr
    obtain ⟨a', -, rfl⟩ := List.mem_map.1 hr2
    apply hno
    intro pr hpr
    obtain ⟨j', -, hpr2⟩ := List.mem_flatMap.1 hpr
    obtain ⟨k', -, rfl⟩ := List.mem_map.1 hpr2
    exact hxv_ne _ _ _ _
  have hnot3 : ∀ r ∈ BuildWaes.eq3Rows inst ws,
      mentionsVar (BuildWaes.varIndex inst (VarKey.ya t i j a))
        (BuildWaes.finalizeRow inst r) = false := by
    intro r hr
    obtain ⟨i', -, hr2⟩ := List.mem_flatMap.1 hr
    obtain ⟨a', -, rfl⟩ := List.mem_map.1 hr2
    apply hno
    intro pr hpr
    obtain ⟨j', -, hpr2⟩ := List.mem_flatMap.1 hpr
    obtain ⟨k', -, rfl⟩ := List.mem_map.1 hpr2
    exact hxv_ne _ _ _ _
  have hnot4 : ∀ r ∈ BuildWaes.eq4Rows inst ws,
      mentionsVar (BuildWaes.varIndex inst (VarKey.ya t i j a))
        (BuildWaes.finalizeRow inst r) = false := by
    intro r hr
    obtain ⟨k', -, hr2⟩ := List.mem_flatMap.1 hr
    obtain ⟨a', -, rfl⟩ := List.mem_map.1 hr2
    apply hno
    intro pr hpr
    rcases List.mem_append.1 hpr with hpr1 | hpr1
    · obtain ⟨j', -, hpr2⟩ := List.mem_flatMap.1 hpr1
      obtain ⟨kp, -, rfl⟩ := List.mem_map.1 hpr2
      exact hxv_ne _ _ _ _
    · obtain ⟨ap, -, hpr2⟩ := List.mem_flatMap.1 hpr1
      obtain ⟨j', -, hpr3⟩ := List.mem_flatMap.1 hpr2
      obtain ⟨i', -, rfl⟩ := List.mem_map.1 hpr3
      exact hxv_ne _ _ _ _
  have hnot5 : ∀ r ∈ BuildWaes.eq5Rows inst ws,
      mentionsVar (BuildWaes.varIndex inst (VarKey.ya t i j a))
        (BuildWaes.finalizeRow inst r) = false := by
    intro r hr
    obtain ⟨k', -, hr2⟩ := List.mem_flatMap.1 hr
    obtain ⟨a', -, rfl⟩ := List.mem_map.1 hr2
    apply hno
    intro pr hpr
    rcases List.mem_append.1 hpr with hpr1 | hpr1
    · obtain ⟨j', -, hpr2⟩ := List.mem_flatMap.1 hpr1
      obtain ⟨kp, -, rfl⟩ := List.mem_map.1 hpr2
      exact hxv_ne _ _ _ _
    · obtain ⟨ap, -, hpr2⟩ := List.mem_flatMap.1 hpr1
      obtain ⟨j', -, hpr3⟩ := List.mem_flatMap.1 hpr2
      obtain ⟨i', -, rfl⟩ := List.mem_map.1 hpr3
      exact hxv_ne _ _ _ _
  have hnot6 : ∀ r ∈ BuildWaes.eq6Rows inst,
      mentionsVar (BuildWaes.varIndex inst (VarKey.ya t i j a))
        (BuildWaes.finalizeRow inst r) = false := by
    intro r hr
    obtain ⟨k', hk', hr2⟩ := List.mem_flatMap.1 hr
    obtain ⟨j', hj', hr3⟩ := List.mem_flatMap.1 hr2
    obtain ⟨a', ha', rfl⟩ := List.mem_map.1 hr3
    apply hno
    intro pr hpr
    rcases List.mem_append.1 hpr with hpr1 | hpr1
    · obtain ⟨i', -, rfl⟩ := List.mem_map.1 hpr1
      exact hxv_ne _ _ _ _
    · obtain ⟨t', ht', rfl⟩ := List.mem_map.1 hpr1
      intro heq
      obtain ⟨hT', hH'⟩ := validated_Ta_T hv ha' ht'
      obtain ⟨rfl, -, -, rfl⟩ :=
        (hya_eq t' k' j' a' hT' hk' hj' ha').1 heq
      exact hcap ht'
  have hnot7 : ∀ r ∈ BuildWaes.eq7Rows inst,
      mentionsVar (BuildWaes.varIndex inst (VarKey.ya t i j a))
        (BuildWaes.finalizeRow inst r) = false := by
    intro r hr
    obtain ⟨i', hi', hr2⟩ := List.mem_flatMap.1 hr
    obtain ⟨j', hj', hr3⟩ := List.mem_flatMap.1 hr2
    obtain ⟨t', ht', rfl⟩ := List.mem_map.1 hr3
    apply hno
    intro pr hpr
    rcases List.mem_append.1 hpr with hpr1 | hpr1
    · obtain ⟨a', ha', rfl⟩ := List.mem_map.1 hpr1
      intro heq
      obtain ⟨hA', hTa'⟩ := validated_Ht_A hv ht' ha'
      obtain ⟨rfl, -, -, rfl⟩ :=
        (hya_eq t' i' j' a' ht' hi' hj' hA').1 heq
      exact hcap hTa'
    · rw [List.mem_singleton.1 hpr1]
      exact hys_ne _ _
  have hnot9 : ∀ r ∈ BuildWaes.eq9Rows inst,
      mentionsVar (BuildWaes.varIndex inst (VarKey.ya t i j a))
        (BuildWaes.finalizeRow inst r) = false := by
    intro r hr
    obtain ⟨t', ht', hr2⟩ := List.mem_flatMap.1 hr
    obtain ⟨j', hj', rfl⟩ := List.mem_map.1 hr2
    apply hno
    intro pr hpr
    rcases List.mem_append.1 hpr with hpr1 | hpr1
    · obtain ⟨i', hi', hpr2⟩ := List.mem_flatMap.1 hpr1
      obtain ⟨a', ha', rfl⟩ := List.mem_map.1 hpr2
      intro heq
      obtain ⟨hA', hTa'⟩ := validated_Ht_A hv ht' ha'
      obtain ⟨rfl, -, -, rfl⟩ := (hya_eq t' i' j' a' ht'
        (validated_Oj_N hv hj' hi') (validated_M1_M hv hj') hA').1 heq
      exact hcap hTa'
    · rw [List.mem_singleton.1 hpr1]
      exact hys_ne _ _
  have hnot10 : ∀ r ∈ BuildWaes.eq10Rows inst,
      mentionsVar (BuildWaes.varIndex inst (VarKey.ya t i j a))
        (BuildWaes.finalizeRow inst r) = false := by
    intro r hr
    rw [List.mem_singleton.1 hr]
    apply hno
    intro pr hpr
    rcases List.mem_append.1 hpr with hpr1 | hpr1
    · obtain ⟨j', -, hpr2⟩ := List.mem_flatMap.1 hpr1
      obtain ⟨t', -, rfl⟩ := List.mem_map.1 hpr2
      exact hys_ne _ _
    · obtain ⟨j', -, hpr2⟩ := List.mem_flatMap.1 hpr1
      obtain ⟨t', -, rfl⟩ := List.mem_map.1 hpr2
      exact hys_ne _ _
  have hnot8 : ∀ i' ∈ inst.N, i' ≠ i →
      mentionsVar (BuildWaes.varIndex inst (VarKey.ya t i j a))
        (BuildWaes.finalizeRow inst (BuildWaes.eq8Raw inst i')) = false := by
    intro i' hi' hne
    apply hno
    intro pr hpr
    obtain ⟨t', ht', hpr2⟩ := List.mem_flatMap.1 hpr
    obtain ⟨j', hj', hpr3⟩ := List.mem_flatMap.1 hpr2
    obtain ⟨a', ha', rfl⟩ := List.mem_map.1 hpr3
    intro heq
    obtain ⟨-, hii, -, -⟩ := (hya_eq t' i' j' a' ht' hi' hj' ha').1 heq
    exact hne hii
  have hfilter8 : (BuildWaes.eq8Contrib inst i).filter
      (fun pr => decide (pr.1 = VarKey.ya t i j a)) =
      [(VarKey.ya t i j a, (1 : ℚ))] := by
    unfold BuildWaes.eq8Contrib
    rw [List.filter_flatMap]
    have hz1 : ∀ t' ∈ inst.T, t' ≠ t →
        ((inst.M.flatMap (fun j' => inst.A.map
          (fun a' => (VarKey.ya t' i j' a', (1 : ℚ))))).filter
          (fun pr => decide (pr.1 = VarKey.ya t i j a))) = [] := by
      intro t' _ hne
      rw [List.filter_flatMap, List.flatMap_eq_nil_iff]
      intro j' _
      rw [List.filter_eq_nil_iff]
      intro pr hpr
      obtain ⟨a', -, rfl⟩ := List.mem_map.1 hpr
      simp [hne]
    rw [flatMap_single hT ht _ hz1]
    rw [List.filter_flatMap]
    have hz2 : ∀ j' ∈ inst.M, j' ≠ j →
        ((inst.A.map (fun a' => (VarKey.ya t i j' a', (1 : ℚ)))).filter
          (fun pr => decide (pr.1 = VarKey.ya t i j a))) = [] := by
      intro j' _ hne
      rw [List.filter_eq_nil_iff]
      intro pr hpr
      obtain ⟨a', -, rfl⟩ := List.mem_map.1 hpr
      simp [hne]
    rw [flatMap_single hM hj _ hz2]
    rw [List.filter_map]
    have hcongr : (inst.A.filter
        ((fun pr => decide (pr.1 = VarKey.ya t i j a)) ∘
          (fun a' => (VarKey.ya t i j a', (1 : ℚ))))) =
        inst.A.filter (fun a' => decide (a' = a)) := by
      apply List.filter_congr
      intro a' _
      simp [Function.comp]
    rw [hcongr, filter_eq_singleton hA ha]
    rfl
  have hmengroup : (BuildWaes.flatOf inst (BuildWaes.eq8Contrib inst i)).filter
      (fun p => decide (p.1 = BuildWaes.varIndex inst (VarKey.ya t i j a))) =
      [(BuildWaes.varIndex inst (VarKey.ya t i j a), (1 : ℚ))] := by
    unfold BuildWaes.flatOf
    rw [List.filter_map]
    have hcongr : (BuildWaes.eq8Contrib inst i).filter
        ((fun p => decide (p.1 =
          BuildWaes.varIndex inst (VarKey.ya t i j a))) ∘
          (fun pr => (BuildWaes.varIndex inst pr.1, pr.2))) =
        (BuildWaes.eq8Contrib inst i).filter
          (fun pr => decide (pr.1 = VarKey.ya t i j a)) := by
      apply List.filter_congr
      intro pr hpr
      obtain ⟨t', ht', hpr2⟩ := List.mem_flatMap.1 hpr
      obtain ⟨j', hj', hpr3⟩ := List.mem_flatMap.1 hpr2
      obtain ⟨a', ha', rfl⟩ := List.mem_map.1 hpr3
      simp only [Function.comp_apply, decide_eq_decide]
      rw [hya_eq t' i j' a' ht' hi hj' ha']
      simp [VarKey.ya.injEq]
    rw [hcongr, hfilter8]
    rfl
  have hmen8 : mentionsVar (BuildWaes.varIndex inst (VarKey.ya t i j a))
      (BuildWaes.finalizeRow inst (BuildWaes.eq8Raw inst i)) = true := by
    apply mentions_of_group
    · show BuildWaes.varIndex inst (VarKey.ya t i j a) ∈
        (BuildWaes.flatOf inst (BuildWaes.eq8Contrib inst i)).map Prod.fst
      refine List.mem_map.2 ⟨(BuildWaes.varIndex inst (VarKey.ya t i j a),
        (1 : ℚ)), ?_, rfl⟩
      have hmm : ((BuildWaes.varIndex inst (VarKey.ya t i j a), (1 : ℚ))) ∈
          (BuildWaes.flatOf inst (BuildWaes.eq8Contrib inst i)).filter
            (fun p => decide (p.1 =
              BuildWaes.varIndex inst (VarKey.ya t i j a))) := by
        rw [hmengroup]
        simp
      exact (List.mem_filter.1 hmm).1
    · show ¬|BuildWaes.groupVal
        (BuildWaes.flatOf inst (BuildWaes.eq8Contrib inst i))
        (BuildWaes.varIndex inst (VarKey.ya t i j a))| ≤ BuildWaes.eps12
      unfold BuildWaes.groupVal
      rw [hmengroup]
      simp [BuildWaes.eps12]
      norm_num
  unfold BuildWaes.modelRows BuildWaes.rawRows
  rw [List.filter_map]
  simp only [List.filter_append]
  have e2 : (BuildWaes.eq2Rows inst ws).filter
      ((mentionsVar (BuildWaes.varIndex inst (VarKey.ya t i j a))) ∘
        BuildWaes.finalizeRow inst) = [] :=
    List.filter_eq_nil_iff.2 (fun r hr => by
      simp [Function.comp_apply, hnot2 r hr])
  have e3 : (BuildWaes.eq3Rows inst ws).filter
      ((mentionsVar (BuildWaes.varIndex inst (VarKey.ya t i j a))) ∘
        BuildWaes.finalizeRow inst) = [] :=
    List.filter_eq_nil_iff.2 (fun r hr => by
      simp [Function.comp_apply, hnot3 r hr])
  have e4 : (BuildWaes.eq4Rows inst ws).filter
      ((mentionsVar (BuildWaes.varIndex inst (VarKey.ya t i j a))) ∘
        BuildWaes.finalizeRow inst) = [] :=
    List.filter_eq_nil_iff.2 (fun r hr => by
      simp [Function.comp_apply, hnot4 r hr])
  have e5 : (BuildWaes.eq5Rows inst ws).filter
      ((mentionsVar (BuildWaes.varIndex inst (VarKey.ya t i j a))) ∘
        BuildWaes.finalizeRow inst) = [] :=
    List.filter_eq_nil_iff.2 (fun r hr => by
      simp [Function.comp_apply, hnot5 r hr])
  have e6 : (BuildWaes.eq6Rows inst).filter
      ((mentionsVar (BuildWaes.varIndex inst (VarKey.ya t i j a))) ∘
        BuildWaes.finalizeRow inst) = [] :=
    List.filter_eq_nil_iff.2 (fun r hr => by
      simp [Function.comp_apply, hnot6 r hr])
  have e7 : (BuildWaes.eq7Rows inst).filter
      ((mentionsVar (BuildWaes.varIndex inst (VarKey.ya t i j a))) ∘
        BuildWaes.finalizeRow inst) = [] :=
    List.filter_eq_nil_iff.2 (fun r hr => by
      simp [Function.comp_apply, hnot7 r hr])
  have e9 : (BuildWaes.eq9Rows inst).filter
      ((mentionsVar (BuildWaes.varIndex inst (VarKey.ya t i j a))) ∘
        BuildWaes.finalizeRow inst) = [] :=
    List.filter_eq_nil_iff.2 (fun r hr => by
      simp [Function.comp_apply, hnot9 r hr])
  have e10 : (BuildWaes.eq10Rows inst).filter
      ((mentionsVar (BuildWaes.varIndex inst (VarKey.ya t i j a))) ∘
        BuildWaes.finalizeRow inst) = [] :=
    List.filter_eq_nil_iff.2 (fun r hr => by
      simp [Function.comp_apply, hnot10 r hr])
  have e8 : (BuildWaes.eq8Rows inst).filter
      ((mentionsVar (BuildWaes.varIndex inst (VarKey.ya t i j a))) ∘
        BuildWaes.finalizeRow inst) = [BuildWaes.eq8Raw inst i] := by
    unfold BuildWaes.eq8Rows
    rw [List.filter_map]
    have hfs : inst.N.filter
        (((mentionsVar (BuildWaes.varIndex inst (VarKey.ya t i j a))) ∘
          BuildWaes.finalizeRow inst) ∘ (fun x => BuildWaes.eq8Raw inst x)) =
        [i] := by
      apply filter_singleton_of hN hi
      · simpa [Function.comp_apply] using hmen8
      · intro i' hi' hne
        simpa [Function.comp_apply] using hnot8 i' hi' hne
    rw [hfs]
    rfl
  rw [e2, e3, e4, e5, e6, e7, e8, e9, e10]
  simp

/-- Validated instance with two profiles and two activities, each profile
capable of exactly one activity: the pair `(t, a) = (1, 2)` is incapable. -/
def c10Inst : InstanceData :=
  { name := "c10", n := 1, N := [1], M1 := [], M2 := [1], M := [1],
    A := [1, 2], B := [1, 2], C := [], A1 := [1, 2], A2 := [], T := [1, 2],
    Ga := fun _ => [], d := fun _ => 0, s := fun _ => 0, v := fun _ => 0,
    r := fun _ => 0,
    Ta := fun a => if a = 1 then [1] else [2],
    Ht := fun t => if t = 1 then [1] else [2],
    c := fun _ => 1, q := 1, p := 0, f := 1, Oj := fun _ => [], w := 1,
    b := fun _ => 1, shift_start := fun _ => 1, shift_length := fun _ => 1,
    shift_cost_multiplier := fun _ => 1, paper_objective_tolerance := 1 }

/-- Witness for C10 at `c10Inst` with the incapable pair `(t, a) = (1, 2)`. -/
theorem incapable_assignment_single_row_witness :
    validateInstance c10Inst = true ∧
    (1 : ℤ) ∉ c10Inst.Ta 2 ∧
    (BuildWaes.modelRows c10Inst false).filter
      (mentionsVar (BuildWaes.varIndex c10Inst (VarKey.ya 1 1 1 2))) =
      [BuildWaes.finalizeRow c10Inst (BuildWaes.eq8Raw c10Inst 1)] :=
  ⟨by with_unfolding_all decide, by decide,
   incapable_assignment_single_row c10Inst (by with_unfolding_all decide)
     (by decide) (by decide) (by decide) false 1 1 1 2 (by decide) (by decide)
     (by decide) (by decide) (by decide)⟩

/-- A variable-dictionary subscript whose key was never created by the
variable-creation loops: `x_aijk[key]` (resp. `y_tija[key]`, `y_tj[key]`)
raises `KeyError` in the source. -/
def BuildWaes.keyAbsent (inst : InstanceData) : VarKey → Bool
  | .xv a i j k =>
      decide (((a, i, j, k) : ℤ × ℤ × ℤ × ℤ) ∉ BuildWaes.xKeys inst)
  | .ya t i j a =>
      decide (((t, i, j, a) : ℤ × ℤ × ℤ × ℤ) ∉ BuildWaes.yiKeys inst)
  | .ys t j => decide (((t, j) : ℤ × ℤ) ∉ BuildWaes.ysKeys inst)

/-- `build_waes_model` raises `KeyError` during constraint-row construction.
The raw contribution lists enumerate, in loop order, exactly the
variable-dictionary subscripts (`x_aijk[...]`, `y_tija[...]`, `y_tj[...]`)
the row-building loops evaluate, so the encoder raises iff some contribution
key is absent from its dictionary. -/
def BuildWaes.raisesKeyError (inst : InstanceData) (ws : Bool) : Bool :=
  (BuildWaes.rawRows inst ws).any
    (fun r => r.contrib.any (fun pr => BuildWaes.keyAbsent inst pr.1))

/-- A solved-value dictionary subscript outside the dense solved key space:
`solved.x_aijk[key]` etc. raises `KeyError` in the source. -/
def Audit.solvedKeyAbsent (inst : InstanceData) : VarKey → Bool
  | .xv a i j k =>
      decide (((a, i, j, k) : ℤ × ℤ × ℤ × ℤ) ∉ Audit.xItems inst)
  | .ya t i j a =>
      decide (((t, i, j, a) : ℤ × ℤ × ℤ × ℤ) ∉ Audit.yiItems inst)
  | .ys t j => decide (((t, j) : ℤ × ℤ) ∉ Audit.ysItems inst)

/-- Solved-value subscripts evaluated by the Eq. (2) audit loop. -/
def Audit.eq2Keys (inst : InstanceData) (ws : Bool) : List VarKey :=
  inst.N.flatMap (fun i => (Audit.set_BA1 inst).flatMap (fun a =>
    inst.M.flatMap (fun j => (rangeII i (Audit.untilA1 inst i a ws)).map
      (fun k => VarKey.xv a i j k))))

/-- Solved-value subscripts evaluated by the Eq. (3) audit loop. -/
def Audit.eq3Keys (inst : InstanceData) (ws : Bool) : List VarKey :=
  inst.N.flatMap (fun i => (Audit.set_BA2 inst).flatMap (fun a =>
    inst.M.flatMap (fun j => (rangeII i (Audit.untilA2 inst i a ws)).map
      (fun k => VarKey.xv a i j k))))

/-- Solved-value subscripts evaluated by the Eq. (4) audit loop (left-hand
side, then the `Ga`-parent reads of the right-hand side). -/
def Audit.eq4Keys (inst : InstanceData) (ws : Bool) : List VarKey :=
  inst.N.flatMap (fun k => (Audit.set_CA1 inst).flatMap (fun a =>
    (inst.M.flatMap (fun j => (rangeII k (Audit.untilA1 inst k a ws)).map
      (fun kp => VarKey.xv a k j kp)))
    ++ ((inst.Ga a).flatMap (fun ap => inst.M.flatMap (fun j =>
      inst.N.map (fun i => VarKey.xv ap i j k))))))

/-- Solved-value subscripts evaluated by the Eq. (5) audit loop. -/
def Audit.eq5Keys (inst : InstanceData) (ws : Bool) : List VarKey :=
  inst.N.flatMap (fun k => (Audit.set_CA2 inst).flatMap (fun a =>
    (inst.M.flatMap (fun j => (rangeII k (Audit.untilA2 inst k a ws)).map
      (fun kp => VarKey.xv a k j kp)))
    ++ ((inst.Ga a).flatMap (fun ap => inst.M.flatMap (fun j =>
      inst.N.map (fun i => VarKey.xv ap i j k))))))

/-- Solved-value subscripts evaluated by the Eq. (6) audit loop. -/
def Audit.eq6Keys (inst : InstanceData) : List VarKey :=
  inst.N.flatMap (fun k => inst.M.flatMap (fun j => inst.A.flatMap (fun a =>
    ((rangeII 1 k).map (fun i => VarKey.xv a i j k))
    ++ ((inst.Ta a).map (fun t => VarKey.ya t k j a)))))

/-- Solved-value subscripts evaluated by the Eq. (7) audit loop. -/
def Audit.eq7Keys (inst : InstanceData) : List VarKey :=
  inst.N.flatMap (fun i => inst.M.flatMap (fun j => inst.T.flatMap (fun t =>
    ((inst.Ht t).map (fun a => VarKey.ya t i j a)) ++ [VarKey.ys t j])))

/-- Solved-value subscripts evaluated by the Eq. (8) audit loop. -/
def Audit.eq8Keys (inst : InstanceData) : List VarKey :=
  inst.N.flatMap (fun i => inst.T.flatMap (fun t => inst.M.flatMap (fun j =>
    inst.A.map (fun a => VarKey.ya t i j a))))

/-- Solved-value subscripts evaluated by the Eq. (9) audit loop. -/
def Audit.eq9Keys (inst : InstanceData) : List VarKey :=
  inst.T.flatMap (fun t => inst.M1.flatMap (fun j =>
    ((inst.Oj j).flatMap (fun i => (inst.Ht t).map
      (fun a => VarKey.ya t i j a))) ++ [VarKey.ys t j]))

/-- Solved-value subscripts evaluated by the Eq. (10) audit check. -/
def Audit.eq10Keys (inst : InstanceData) : List VarKey :=
  (inst.M2.flatMap (fun j => inst.T.map (fun t => VarKey.ys t j)))
  ++ (inst.M.flatMap (fun j => inst.T.map (fun t => VarKey.ys t j)))

/-- All solved-value dictionary subscripts evaluated by `run_audits`, in
order (the Eq. (11) loop iterates `.items()` and performs no subscripting). -/
def Audit.lookupKeys (inst : InstanceData) (ws : Bool) : List VarKey :=
  Audit.eq2Keys inst ws ++ Audit.eq3Keys inst ws ++ Audit.eq4Keys inst ws ++
  Audit.eq5Keys inst ws ++ Audit.eq6Keys inst ++ Audit.eq7Keys inst ++
  Audit.eq8Keys inst ++ Audit.eq9Keys inst ++ Audit.eq10Keys inst

/-- `run_audits` raises `KeyError`: some solved-value subscript it evaluates
lies outside the dense solved key space. -/
def Audit.auditRaises (inst : InstanceData) (ws : Bool) : Bool :=
  (Audit.lookupKeys inst ws).any (Audit.solvedKeyAbsent inst)

theorem mem_sortedInter {x : ℤ} {xs ys : List ℤ} :
    x ∈ sortedInter xs ys ↔ x ∈ xs ∧ x ∈ ys := by
  unfold sortedInter
  rw [List.mem_insertionSort, List.mem_dedup, List.mem_filter]
  simp

theorem validated_B_A {inst : InstanceData} (hv : validateInstance inst = true)
    {a : ℤ} (ha : a ∈ inst.B) : a ∈ inst.A := by
  simp only [validateInstance, Bool.and_eq_true] at hv
  have hp := hv.1.1.1.1.1
  simp only [chkPartitions, Bool.and_eq_true, List.all_eq_true] at hp
  have h := hp.1.1.1.1.1.2 a ha
  simpa using h

theorem validated_C_A {inst : InstanceData} (hv : validateInstance inst = true)
    {a : ℤ} (ha : a ∈ inst.C) : a ∈ inst.A := by
  simp only [validateInstance, Bool.and_eq_true] at hv
  have hp := hv.1.1.1.1.1
  simp only [chkPartitions, Bool.and_eq_true, List.all_eq_true] at hp
  have h := hp.1.1.1.1.2 a ha
  simpa using h

theorem validated_M2_M {inst : InstanceData}
    (hv : validateInstance inst = true) {j : ℤ} (hj : j ∈ inst.M2) :
    j ∈ inst.M := by
  simp only [validateInstance, Bool.and_eq_true] at hv
  have hp := hv.1.1.1.1.1
  simp only [chkPartitions, Bool.and_eq_true, List.all_eq_true] at hp
  have h := hp.1.1.1.1.1.1.1.1.2 j hj
  simpa using h

theorem mem_N_bounds {inst : InstanceData} (hv : validateInstance inst = true)
    {x : ℤ} (hx : x ∈ inst.N) : 1 ≤ x ∧ x ≤ inst.n := by
  rw [validated_N_range hv] at hx
  exact mem_rangeII.1 hx

theorem mem_N_of_bounds {inst : InstanceData}
    (hv : validateInstance inst = true) {x : ℤ} (h1 : 1 ≤ x)
    (h2 : x ≤ inst.n) : x ∈ inst.N := by
  rw [validated_N_range hv]
  exact mem_rangeII.2 ⟨h1, h2⟩

theorem ysKeys_mem (inst : InstanceData) {t j : ℤ} (ht : t ∈ inst.T)
    (hj : j ∈ inst.M) : ((t, j) : ℤ × ℤ) ∈ BuildWaes.ysKeys inst := by
  unfold BuildWaes.ysKeys
  exact List.mem_flatMap.2 ⟨t, ht, List.mem_map.2 ⟨j, hj, rfl⟩⟩

theorem untilA1_le_n (inst : InstanceData) (i a : ℤ) (ws : Bool) :
    BuildWaes.untilA1 inst i a ws ≤ inst.n := by
  unfold BuildWaes.untilA1
  exact min_le_right _ _

theorem untilA2_le_n (inst : InstanceData) {i : ℤ} (a : ℤ) (ws : Bool)
    (hin : i ≤ inst.n) : BuildWaes.untilA2 inst i a ws ≤ inst.n := by
  unfold BuildWaes.untilA2
  split_ifs
  · exact hin
  · exact hin
  · exact max_le hin (min_le_right _ _)

theorem keyAbsent_false_x {inst : InstanceData} {a i j k : ℤ}
    (h : ((a, i, j, k) : ℤ × ℤ × ℤ × ℤ) ∈ BuildWaes.xKeys inst) :
    BuildWaes.keyAbsent inst (VarKey.xv a i j k) = false := by
  simp [BuildWaes.keyAbsent, h]

theorem keyAbsent_false_ya {inst : InstanceData} {t i j a : ℤ}
    (h : ((t, i, j, a) : ℤ × ℤ × ℤ × ℤ) ∈ BuildWaes.yiKeys inst) :
    BuildWaes.keyAbsent inst (VarKey.ya t i j a) = false := by
  simp [BuildWaes.keyAbsent, h]

theorem keyAbsent_false_ys {inst : InstanceData} {t j : ℤ}
    (h : ((t, j) : ℤ × ℤ) ∈ BuildWaes.ysKeys inst) :
    BuildWaes.keyAbsent inst (VarKey.ys t j) = false := by
  simp [BuildWaes.keyAbsent, h]

theorem solvedKeyAbsent_false_x {inst : InstanceData} {a i j k : ℤ}
    (h : ((a, i, j, k) : ℤ × ℤ × ℤ × ℤ) ∈ Audit.xItems inst) :
    Audit.solvedKeyAbsent inst (VarKey.xv a i j k) = false := by
  simp [Audit.solvedKeyAbsent, h]

theorem solvedKeyAbsent_false_ya {inst : InstanceData} {t i j a : ℤ}
    (h : ((t, i, j, a) : ℤ × ℤ × ℤ × ℤ) ∈ Audit.yiItems inst) :
    Audit.solvedKeyAbsent inst (VarKey.ya t i j a) = false := by
  simp [Audit.solvedKeyAbsent, h]

theorem solvedKeyAbsent_false_ys {inst : InstanceData} {t j : ℤ}
    (h : ((t, j) : ℤ × ℤ) ∈ Audit.ysItems inst) :
    Audit.solvedKeyAbsent inst (VarKey.ys t j) = false := by
  simp [Audit.solvedKeyAbsent, h]

/-- If validation succeeded and every parent named by the dependency graph of
a dependent activity lies in `A`, every variable-dictionary subscript evaluated
by the row-building loops of `build_waes_model` was created by the
variable-creation loops, so the encoder raises no `KeyError`. -/
theorem encoder_no_missing (inst : InstanceData) (ws : Bool)
    (hv : validateInstance inst = true)
    (hGa : ∀ a ∈ inst.C, ∀ ap ∈ inst.Ga a, ap ∈ inst.A) :
    BuildWaes.raisesKeyError inst ws = false := by
  unfold BuildWaes.raisesKeyError
  simp only [List.any_eq_false, Bool.not_eq_true]
  intro r hr pr hpr
  simp only [BuildWaes.rawRows, List.mem_append] at hr
  rcases hr with ((((((((h | h) | h) | h) | h) | h) | h) | h) | h)
  · obtain ⟨i, hi, h1⟩ := List.mem_flatMap.1 h
    obtain ⟨a, ha, rfl⟩ := List.mem_map.1 h1
    have ha' : a ∈ sortedInter inst.B inst.A1 := ha
    obtain ⟨j, hj, h2⟩ := List.mem_flatMap.1
      (show pr ∈ BuildWaes.eq2Contrib inst ws i a from hpr)
    obtain ⟨k, hk, rfl⟩ := List.mem_map.1 h2
    obtain ⟨hk1, hk2⟩ := mem_rangeII.1 hk
    have hib := mem_N_bounds hv hi
    exact keyAbsent_false_x (xKeys_mem inst
      (validated_B_A hv (mem_sortedInter.1 ha').1) hi hj
      (mem_N_of_bounds hv (by omega)
        (le_trans hk2 (untilA1_le_n inst i a ws))))
  · obtain ⟨i, hi, h1⟩ := List.mem_flatMap.1 h
    obtain ⟨a, ha, rfl⟩ := List.mem_map.1 h1
    have ha' : a ∈ sortedInter inst.B inst.A2 := ha
    obtain ⟨j, hj, h2⟩ := List.mem_flatMap.1
      (show pr ∈ BuildWaes.eq3Contrib inst ws i a from hpr)
    obtain ⟨k, hk, rfl⟩ := List.mem_map.1 h2
    obtain ⟨hk1, hk2⟩ := mem_rangeII.1 hk
    have hib := mem_N_bounds hv hi
    exact keyAbsent_false_x (xKeys_mem inst
      (validated_B_A hv (mem_sortedInter.1 ha').1) hi hj
      (mem_N_of_bounds hv (by omega)
        (le_trans hk2 (untilA2_le_n inst a ws hib.2))))
  · obtain ⟨k, hk, h1⟩ := List.mem_flatMap.1 h
    obtain ⟨a, ha, rfl⟩ := List.mem_map.1 h1
    have ha' : a ∈ sortedInter inst.C inst.A1 := ha
    have haC : a ∈ inst.C := (mem_sortedInter.1 ha').1
    have hkb := mem_N_bounds hv hk
    rcases List.mem_append.1
      (show pr ∈ BuildWaes.eq4Contrib inst ws k a from hpr) with h2 | h2
    · obtain ⟨j, hj, h3⟩ := List.mem_flatMap.1 h2
      obtain ⟨kp, hkp, rfl⟩ := List.mem_map.1 h3
      obtain ⟨hkp1, hkp2⟩ := mem_rangeII.1 hkp
      exact keyAbsent_false_x (xKeys_mem inst (validated_C_A hv haC) hk hj
        (mem_N_of_bounds hv (by omega)
          (le_trans hkp2 (untilA1_le_n inst k a ws))))
    · obtain ⟨ap, hap, h3⟩ := List.mem_flatMap.1 h2
      obtain ⟨j, hj, h4⟩ := List.mem_flatMap.1 h3
      obtain ⟨i, hi, rfl⟩ := List.mem_map.1 h4
      exact keyAbsent_false_x (xKeys_mem inst (hGa a haC ap hap) hi hj hk)
  · obtain ⟨k, hk, h1⟩ := List.mem_flatMap.1 h
    obtain ⟨a, ha, rfl⟩ := List.mem_map.1 h1
    have ha' : a ∈ sortedInter inst.C inst.A2 := ha
    have haC : a ∈ inst.C := (mem_sortedInter.1 ha').1
    have hkb := mem_N_bounds hv hk
    rcases List.mem_append.1
      (show pr ∈ BuildWaes.eq5Contrib inst ws k a from hpr) with h2 | h2
    · obtain ⟨j, hj, h3⟩ := List.mem_flatMap.1 h2
      obtain ⟨kp, hkp, rfl⟩ := List.mem_map.1 h3
      obtain ⟨hkp1, hkp2⟩ := mem_rangeII.1 hkp
      exact keyAbsent_false_x (xKeys_mem inst (validated_C_A hv haC) hk hj
        (mem_N_of_bounds hv (by omega)
          (le_trans hkp2 (untilA2_le_n inst a ws hkb.2))))
    · obtain ⟨ap, hap, h3⟩ := List.mem_flatMap.1 h2
      obtain ⟨j, hj, h4⟩ := List.mem_flatMap.1 h3
      obtain ⟨i, hi, rfl⟩ := List.mem_map.1 h4
      exact keyAbsent_false_x (xKeys_mem inst (hGa a haC ap hap) hi hj hk)
  · obtain ⟨k, hk, h1⟩ := List.mem_flatMap.1 h
    obtain ⟨j, hj, h2⟩ := List.mem_flatMap.1 h1
    obtain ⟨a, ha, rfl⟩ := List.mem_map.1 h2
    have hkb := mem_N_bounds hv hk
    rcases List.mem_append.1
      (show pr ∈ BuildWaes.eq6Contrib inst k j a from hpr) with h3 | h3
    · obtain ⟨i, hi, rfl⟩ := List.mem_map.1 h3
      obtain ⟨hi1, hi2⟩ := mem_rangeII.1 hi
      exact keyAbsent_false_x (xKeys_mem inst ha
        (mem_N_of_bounds hv hi1 (by omega)) hj hk)
    · obtain ⟨t, ht, rfl⟩ := List.mem_map.1 h3
      exact keyAbsent_false_ya (yiKeys_mem inst
        (validated_Ta_T hv ha ht).1 hk hj ha)
  · obtain ⟨i, hi, h1⟩ := List.mem_flatMap.1 h
    obtain ⟨j, hj, h2⟩ := List.mem_flatMap.1 h1
    obtain ⟨t, ht, rfl⟩ := List.mem_map.1 h2
    rcases List.mem_append.1
      (show pr ∈ BuildWaes.eq7Contrib inst i j t from hpr) with h3 | h3
    · obtain ⟨a, ha, rfl⟩ := List.mem_map.1 h3
      exact keyAbsent_false_ya (yiKeys_mem inst ht hi hj
        (validated_Ht_A hv ht ha).1)
    · rw [List.mem_singleton.1 h3]
      exact keyAbsent_false_ys (ysKeys_mem inst ht hj)
  · obtain ⟨i, hi, rfl⟩ := List.mem_map.1 h
    obtain ⟨t, ht, h1⟩ := List.mem_flatMap.1
      (show pr ∈ BuildWaes.eq8Contrib inst i from hpr)
    obtain ⟨j, hj, h2⟩ := List.mem_flatMap.1 h1
    obtain ⟨a, ha, rfl⟩ := List.mem_map.1 h2
    exact keyAbsent_false_ya (yiKeys_mem inst ht hi hj ha)
  · obtain ⟨t, ht, h1⟩ := List.mem_flatMap.1 h
    obtain ⟨j, hj, rfl⟩ := List.mem_map.1 h1
    rcases List.mem_append.1
      (show pr ∈ BuildWaes.eq9Contrib inst t j from hpr) with h2 | h2
    · obtain ⟨i, hi, h3⟩ := List.mem_flatMap.1 h2
      obtain ⟨a, ha, rfl⟩ := List.mem_map.1 h3
      exact keyAbsent_false_ya (yiKeys_mem inst ht
        (validated_Oj_N hv hj hi) (validated_M1_M hv hj)
        (validated_Ht_A hv ht ha).1)
    · rw [List.mem_singleton.1 h2]
      exact keyAbsent_false_ys (ysKeys_mem inst ht (validated_M1_M hv hj))
  · rw [List.mem_singleton.1 h] at hpr
    rcases List.mem_append.1
      (show pr ∈ BuildWaes.eq10Contrib inst from hpr) with h2 | h2
    · obtain ⟨j, hj, h3⟩ := List.mem_flatMap.1 h2
      obtain ⟨t, ht, rfl⟩ := List.mem_map.1 h3
      exact keyAbsent_false_ys (ysKeys_mem inst ht (validated_M2_M hv hj))
    · obtain ⟨j, hj, h3⟩ := List.mem_flatMap.1 h2
      obtain ⟨t, ht, rfl⟩ := List.mem_map.1 h3
      exact keyAbsent_false_ys (ysKeys_mem inst ht hj)

/-- If validation succeeded and every parent named by the dependency graph of
a dependent activity lies in `A`, every solved-value dictionary subscript
evaluated by `run_audits` lies in the dense solved key space, so the audit
raises no `KeyError`. -/
theorem audit_no_missing (inst : InstanceData) (ws : Bool)
    (hv : validateInstance inst = true)
    (hGa : ∀ a ∈ inst.C, ∀ ap ∈ inst.Ga a, ap ∈ inst.A) :
    Audit.auditRaises inst ws = false := by
  unfold Audit.auditRaises
  simp only [List.any_eq_false, Bool.not_eq_true]
  intro key hkey
  simp only [Audit.lookupKeys, List.mem_append] at hkey
  rcases hkey with ((((((((h | h) | h) | h) | h) | h) | h) | h) | h)
  · obtain ⟨i, hi, h1⟩ := List.mem_flatMap.1 h
    obtain ⟨a, ha, h2⟩ := List.mem_flatMap.1 h1
    have ha' : a ∈ sortedInter inst.B inst.A1 := ha
    obtain ⟨j, hj, h3⟩ := List.mem_flatMap.1 h2
    obtain ⟨k, hk, rfl⟩ := List.mem_map.1 h3
    obtain ⟨hk1, hk2⟩ := mem_rangeII.1 hk
    have hib := mem_N_bounds hv hi
    exact solvedKeyAbsent_false_x (xKeys_mem inst
      (validated_B_A hv (mem_sortedInter.1 ha').1) hi hj
      (mem_N_of_bounds hv (by omega)
        (le_trans hk2 (untilA1_le_n inst i a ws))))
  · obtain ⟨i, hi, h1⟩ := List.mem_flatMap.1 h
    obtain ⟨a, ha, h2⟩ := List.mem_flatMap.1 h1
    have ha' : a ∈ sortedInter inst.B inst.A2 := ha
    obtain ⟨j, hj, h3⟩ := List.mem_flatMap.1 h2
    obtain ⟨k, hk, rfl⟩ := List.mem_map.1 h3
    obtain ⟨hk1, hk2⟩ := mem_rangeII.1 hk
    have hib := mem_N_bounds hv hi
    exact solvedKeyAbsent_false_x (xKeys_mem inst
      (validated_B_A hv (mem_sortedInter.1 ha').1) hi hj
      (mem_N_of_bounds hv (by omega)
        (le_trans hk2 (untilA2_le_n inst a ws hib.2))))
  · obtain ⟨k, hk, h1⟩ := List.mem_flatMap.1 h
    obtain ⟨a, ha, h2⟩ := List.mem_flatMap.1 h1
    have ha' : a ∈ sortedInter inst.C inst.A1 := ha
    have haC : a ∈ inst.C := (mem_sortedInter.1 ha').1
    have hkb := mem_N_bounds hv hk
    rcases List.mem_append.1 h2 with h3 | h3
    · obtain ⟨j, hj, h4⟩ := List.mem_flatMap.1 h3
      obtain ⟨kp, hkp, rfl⟩ := List.mem_map.1 h4
      obtain ⟨hkp1, hkp2⟩ := mem_rangeII.1 hkp
      exact solvedKeyAbsent_false_x (xKeys_mem inst (validated_C_A hv haC)
        hk hj (mem_N_of_bounds hv (by omega)
          (le_trans hkp2 (untilA1_le_n inst k a ws))))
    · obtain ⟨ap, hap, h4⟩ := List.mem_flatMap.1 h3
      obtain ⟨j, hj, h5⟩ := List.mem_flatMap.1 h4
      obtain ⟨i, hi, rfl⟩ := List.mem_map.1 h5
      exact solvedKeyAbsent_false_x
        (xKeys_mem inst (hGa a haC ap hap) hi hj hk)
  · obtain ⟨k, hk, h1⟩ := List.mem_flatMap.1 h
    obtain ⟨a, ha, h2⟩ := List.mem_flatMap.1 h1
    have ha' : a ∈ sortedInter inst.C inst.A2 := ha
    have haC : a ∈ inst.C := (mem_sortedInter.1 ha').1
    have hkb := mem_N_bounds hv hk
    rcases List.mem_append.1 h2 with h3 | h3
    · obtain ⟨j, hj, h4⟩ := List.mem_flatMap.1 h3
      obtain ⟨kp, hkp, rfl⟩ := List.mem_map.1 h4
      obtain ⟨hkp1, hkp2⟩ := mem_rangeII.1 hkp
      exact solvedKeyAbsent_false_x (xKeys_mem inst (validated_C_A hv haC)
        hk hj (mem_N_of_bounds hv (by omega)
          (le_trans hkp2 (untilA2_le_n inst a ws hkb.2))))
    · obtain ⟨ap, hap, h4⟩ := List.mem_flatMap.1 h3
      obtain ⟨j, hj, h5⟩ := List.mem_flatMap.1 h4
      obtain ⟨i, hi, rfl⟩ := List.mem_map.1 h5
      exact solvedKeyAbsent_false_x
        (xKeys_mem inst (hGa a haC ap hap) hi hj hk)
  · obtain ⟨k, hk, h1⟩ := List.mem_flatMap.1 h
    obtain ⟨j, hj, h2⟩ := List.mem_flatMap.1 h1
    obtain ⟨a, ha, h3⟩ := List.mem_flatMap.1 h2
    have hkb := mem_N_bounds hv hk
    rcases List.mem_append.1 h3 with h4 | h4
    · obtain ⟨i, hi, rfl⟩ := List.mem_map.1 h4
      obtain ⟨hi1, hi2⟩ := mem_rangeII.1 hi
      exact solvedKeyAbsent_false_x (xKeys_mem inst ha
        (mem_N_of_bounds hv hi1 (by omega)) hj hk)
    · obtain ⟨t, ht, rfl⟩ := List.mem_map.1 h4
      exact solvedKeyAbsent_false_ya (yiKeys_mem inst
        (validated_Ta_T hv ha ht).1 hk hj ha)
  · obtain ⟨i, hi, h1⟩ := List.mem_flatMap.1 h
    obtain ⟨j, hj, h2⟩ := List.mem_flatMap.1 h1
    obtain ⟨t, ht, h3⟩ := List.mem_flatMap.1 h2
    rcases List.mem_append.1 h3 with h4 | h4
    · obtain ⟨a, ha, rfl⟩ := List.mem_map.1 h4
      exact solvedKeyAbsent_false_ya (yiKeys_mem inst ht hi hj
        (validated_Ht_A hv ht ha).1)
    · rw [List.mem_singleton.1 h4]
      exact solvedKeyAbsent_false_ys (ysKeys_mem inst ht hj)
  · obtain ⟨i, hi, h1⟩ := List.mem_flatMap.1 h
    obtain ⟨t, ht, h2⟩ := List.mem_flatMap.1 h1
    obtain ⟨j, hj, h3⟩ := List.mem_flatMap.1 h2
    obtain ⟨a, ha, rfl⟩ := List.mem_map.1 h3
    exact solvedKeyAbsent_false_ya (yiKeys_mem inst ht hi hj ha)
  · obtain ⟨t, ht, h1⟩ := List.mem_flatMap.1 h
    obtain ⟨j, hj, h2⟩ := List.mem_flatMap.1 h1
    rcases List.mem_append.1 h2 with h3 | h3
    · obtain ⟨i, hi, h4⟩ := List.mem_flatMap.1 h3
      obtain ⟨a, ha, rfl⟩ := List.mem_map.1 h4
      exact solvedKeyAbsent_false_ya (yiKeys_mem inst ht
        (validated_Oj_N hv hj hi) (validated_M1_M hv hj)
        (validated_Ht_A hv ht ha).1)
    · rw [List.mem_singleton.1 h3]
      exact solvedKeyAbsent_false_ys
        (ysKeys_mem inst ht (validated_M1_M hv hj))
  · rcases List.mem_append.1 h with h2 | h2
    · obtain ⟨j, hj, h3⟩ := List.mem_flatMap.1 h2
      obtain ⟨t, ht, rfl⟩ := List.mem_map.1 h3
      exact solvedKeyAbsent_false_ys
        (ysKeys_mem inst ht (validated_M2_M hv hj))
    · obtain ⟨j, hj, h3⟩ := List.mem_flatMap.1 h2
      obtain ⟨t, ht, rfl⟩ := List.mem_map.1 h3
      exact solvedKeyAbsent_false_ys (ysKeys_mem inst ht hj)

/-- `cexInst` with the dependency graph of activity 2 naming parent 999,
which is not in `A`; `validate_instance` only checks that `s[(2, 999)]` is
present (dictionaries being total here, it is), so the instance validates. -/
def c67Inst : InstanceData :=
  { cexInst with
    Ga := fun a => if a = 2 then [999] else [],
    s := fun key => if key = (2, 999) then 1 else 0 }

/-- Counterexample for C6: `c67Inst` validates, yet `run_audits` evaluates the
Eq. (4) right-hand-side subscript `solved.x_aijk[(999, 1, 1, 1)]`, which lies
outside the dense solved key space, so the audit raises `KeyError` in either
mode (before any issue can be collected). -/
theorem audit_keyerror_cex :
    validateInstance c67Inst = true ∧
    (2 : ℤ) ∈ c67Inst.C ∧ (999 : ℤ) ∈ c67Inst.Ga 2 ∧
    (999 : ℤ) ∉ c67Inst.A ∧
    VarKey.xv 999 1 1 1 ∈ Audit.eq4Keys c67Inst false ∧
    Audit.solvedKeyAbsent c67Inst (VarKey.xv 999 1 1 1) = true ∧
    Audit.auditRaises c67Inst false = true ∧
    Audit.auditRaises c67Inst true = true := by
  with_unfolding_all decide

/-- Counterexample for C7: on the validated instance `c67Inst`,
`build_waes_model` evaluates the Eq. (4) subscript `x_aijk[(999, 1, 1, 1)]`,
a key the variable-creation loops never created, so the encoder raises
`KeyError` in either mode. -/
theorem encoder_keyerror_cex :
    validateInstance c67Inst = true ∧
    (2 : ℤ) ∈ c67Inst.C ∧ (999 : ℤ) ∈ c67Inst.Ga 2 ∧
    (999 : ℤ) ∉ c67Inst.A ∧
    BuildWaes.keyAbsent c67Inst (VarKey.xv 999 1 1 1) = true ∧
    BuildWaes.raisesKeyError c67Inst false = true ∧
    BuildWaes.raisesKeyError c67Inst true = true := by
  with_unfolding_all decide

/-- C6 (amended): for every instance, solved values, mode and tolerance, the
report returned by `run_audits` has `passed = true` iff its issue list is
empty; and on a validated instance whose dependency graph names only parents
in `A`, `run_audits` evaluates no solved-value subscript outside the dense
solved key space, so it returns normally (the unguarded `Ga` parent reads of
the Eq. (4)/(5) right-hand sides are the only possible `KeyError` sites, and
`audit_keyerror_cex` shows they are reachable on a validated instance). -/
theorem audit_error_contract_amended (inst : InstanceData) (sv : SolvedValues)
    (ws : Bool) (tol : ℚ) :
    ((Audit.run_audits inst sv ws tol).passed = true ↔
      (Audit.run_audits inst sv ws tol).issues = []) ∧
    (validateInstance inst = true →
      (∀ a ∈ inst.C, ∀ ap ∈ inst.Ga a, ap ∈ inst.A) →
      Audit.auditRaises inst ws = false) := by
  constructor
  · simp [Audit.run_audits, List.isEmpty_iff]
  · intro hv hGa
    exact audit_no_missing inst ws hv hGa

/-- Witness for the amended C6 theorem at `cexInst` (whose dependency graph
names only parent 1, an element of `A`). -/
theorem audit_error_contract_amended_witness :
    ((Audit.run_audits cexInst svZero false (1/10000)).passed = true ↔
      (Audit.run_audits cexInst svZero false (1/10000)).issues = []) ∧
    Audit.auditRaises cexInst false = false :=
  ⟨(audit_error_contract_amended cexInst svZero false (1/10000)).1,
   (audit_error_contract_amended cexInst svZero false (1/10000)).2
     (by with_unfolding_all decide) (by with_unfolding_all decide)⟩

/-- C7 (amended): for every instance and mode, provided validation succeeded
and the dependency graph names only parents in `A`, `build_waes_model`
evaluates no variable-dictionary subscript outside the created key space, so
it raises no `KeyError` (`encoder_keyerror_cex` shows the guard is necessary:
a validated instance may name a foreign parent and the Eq. (4)/(5) loops then
raise); unconditionally, the emitted row count equals the fixed formula in the
index-set sizes, and a demand family (1)/(2) row whose window contributes only
zero coefficients is still emitted, with no stored coefficients and equality
bounds `lb = ub = d[a, i]`. -/
theorem encoder_degenerate_rows_amended (inst : InstanceData) (ws : Bool) :
    (validateInstance inst = true →
      (∀ a ∈ inst.C, ∀ ap ∈ inst.Ga a, ap ∈ inst.A) →
      BuildWaes.raisesKeyError inst ws = false) ∧
    (BuildWaes.build_waes_model inst ws).constraint_lb.length =
      inst.N.length * (BuildWaes.set_BA1 inst).length +
      inst.N.length * (BuildWaes.set_BA2 inst).length +
      inst.N.length * (BuildWaes.set_CA1 inst).length +
      inst.N.length * (BuildWaes.set_CA2 inst).length +
      inst.N.length * (inst.M.length * inst.A.length) +
      inst.N.length * (inst.M.length * inst.T.length) +
      inst.N.length + inst.T.length * inst.M1.length + 1 ∧
    (∀ i a, i ∈ inst.N → a ∈ BuildWaes.set_BA1 inst →
      (∀ pr ∈ BuildWaes.eq2Contrib inst ws i a, pr.2 = 0) →
      BuildWaes.finalizeRow inst (BuildWaes.eq2Raw inst ws i a) =
        ⟨[], .val (inst.d (a, i)), .val (inst.d (a, i))⟩ ∧
      BuildWaes.finalizeRow inst (BuildWaes.eq2Raw inst ws i a) ∈
        BuildWaes.modelRows inst ws) ∧
    (∀ i a, i ∈ inst.N → a ∈ BuildWaes.set_BA2 inst →
      (∀ pr ∈ BuildWaes.eq3Contrib inst ws i a, pr.2 = 0) →
      BuildWaes.finalizeRow inst (BuildWaes.eq3Raw inst ws i a) =
        ⟨[], .val (inst.d (a, i)), .val (inst.d (a, i))⟩ ∧
      BuildWaes.finalizeRow inst (BuildWaes.eq3Raw inst ws i a) ∈
        BuildWaes.modelRows inst ws) := by
  refine ⟨fun hv hGa => encoder_no_missing inst ws hv hGa, ?_, ?_, ?_⟩
  · show ((BuildWaes.modelRows inst ws).map _).length = _
    rw [List.length_map, modelRows_length]
  · intro i a hi ha hdeg
    constructor
    · exact finalize_zero_contrib inst _ _ _ hdeg
    · refine List.mem_map.2 ⟨BuildWaes.eq2Raw inst ws i a, ?_, rfl⟩
      have hmem : BuildWaes.eq2Raw inst ws i a ∈ BuildWaes.eq2Rows inst ws :=
        List.mem_flatMap.2 ⟨i, hi, List.mem_map.2 ⟨a, ha, rfl⟩⟩
      simp [BuildWaes.rawRows, List.mem_append, hmem]
  · intro i a hi ha hdeg
    constructor
    · exact finalize_zero_contrib inst _ _ _ hdeg
    · refine List.mem_map.2 ⟨BuildWaes.eq3Raw inst ws i a, ?_, rfl⟩
      have hmem : BuildWaes.eq3Raw inst ws i a ∈ BuildWaes.eq3Rows inst ws :=
        List.mem_flatMap.2 ⟨i, hi, List.mem_map.2 ⟨a, ha, rfl⟩⟩
      simp [BuildWaes.rawRows, List.mem_append, hmem]

/-- Witness for the amended C7 theorem at `c7Inst` (zero coverage everywhere,
dependency graph naming only parent 1 ∈ A), `i = 1`, `a = 1`. -/
theorem encoder_degenerate_rows_amended_witness :
    BuildWaes.raisesKeyError c7Inst false = false ∧
    (1 : ℤ) ∈ c7Inst.N ∧ (1 : ℤ) ∈ BuildWaes.set_BA1 c7Inst ∧
    (∀ pr ∈ BuildWaes.eq2Contrib c7Inst false 1 1, pr.2 = 0) ∧
    (BuildWaes.finalizeRow c7Inst (BuildWaes.eq2Raw c7Inst false 1 1) =
      ⟨[], .val (c7Inst.d (1, 1)), .val (c7Inst.d (1, 1))⟩ ∧
    BuildWaes.finalizeRow c7Inst (BuildWaes.eq2Raw c7Inst false 1 1) ∈
      BuildWaes.modelRows c7Inst false) :=
  ⟨(encoder_degenerate_rows_amended c7Inst false).1
     (by with_unfolding_all decide) (by with_unfolding_all decide),
   by decide, by with_unfolding_all decide, by with_unfolding_all decide,
   (encoder_degenerate_rows_amended c7Inst false).2.2.1 1 1 (by decide)
     (by with_unfolding_all decide) (by with_unfolding_all decide)⟩
